import Mathlib

/-!
# Audio ring buffer of `src/EMULib/Wii/SndSDL.c`

A shallow embedding of the six module-level variables of `SndSDL.c` and of the
functions `AudioHandler`, `InitAudio`, `TrashAudio`, `PauseAudio`,
`GetFreeAudio`, `WriteAudio` and `ResetAudio`, followed by theorems about them.

Conventions of the embedding.

* A C array (the ring buffer `SndData`, the callback's `Stream`, the producer's
  `Data`) is a `List sample`; a null pointer is `none`.  Every array access is
  checked: an access outside the array, or through a null pointer, makes the
  embedded function return `none` (undefined behaviour in C).
* C `int` variables are `Int`, C `unsigned int` values are `Nat`.  The 32-bit
  wrap is written out where the source depends on it: the unsigned product
  `Rate * Latency`, and the conversions between `int` and `unsigned int`.
  Index increments follow an in-bounds access and so stay far below `INT_MAX`;
  they are not wrapped.
* `SndRate` is an `int` that receives the `unsigned int` `Rate`: the embedding
  stores `toInt32 Rate`, which is `Rate - 2^32` when `Rate >= 2^31`, and
  `InitAudio` returns it converted back to `unsigned int`.
* `for` loops are recursive functions on a fuel counter; each caller passes a
  fuel that bounds the number of iterations, and a loop that would need more
  returns `none`.
* Calls into SDL are recorded, in order, in the `calls` list of the result.
  The outcome of `malloc` and of `SDL_OpenAudio` is an input (`Env`).
* `Call` names one call with its arguments and `Call.runAll` makes a sequence
  of calls in order; the statements about reachable states are about these.
-/

namespace SndSDL

/-! ## Data model -/

/-- Modelled from the spec: the type `sample` is declared in `Sound.h`, which is
not among the sources; the spec describes a sample as a signed integer audio
unit. -/
abbrev sample := Int

/-- Modelled from the spec: the value of `sizeof(sample)`, whose declaration is
in the absent `Sound.h`; the spec fixes 16-bit samples, that is two bytes. -/
def sizeofSample : Nat := 2

/-- Conversion of an `int` to `unsigned int`: reduction modulo `2^32`. -/
def toUInt32 (x : Int) : Nat := (x % 4294967296).toNat

/-- Conversion of an `unsigned int` to `int` (two's complement, 32 bits). -/
def toInt32 (n : Nat) : Int :=
  if n % 4294967296 < 2147483648 then ((n % 4294967296 : Nat) : Int)
  else ((n % 4294967296 : Nat) : Int) - 4294967296

/-- Conversion of an `int` to `Uint16`: reduction modulo `2^16`. -/
def toUInt16 (x : Int) : Nat := (x % 65536).toNat

/-- The static variables of `SndSDL.c` (lines 51-56). -/
structure State where
  /-- Audio sampling rate. -/
  SndRate : Int
  /-- Size of `SndData[]`. -/
  SndSize : Int
  /-- Audio buffer; `none` is the null pointer. -/
  SndData : Option (List sample)
  /-- Read pointer. -/
  RPtr : Int
  /-- Write pointer. -/
  WPtr : Int
  /-- Nonzero when audio is paused. -/
  AudioPaused : Int
  deriving DecidableEq, Repr

/-- A call made into the SDL audio device. -/
inductive SDLCall where
  /-- The call `SDL_OpenAudio(&AudioFormat, 0)` with the fields `freq` (an `int`), `channels`
  and `samples` (a `Uint16`) of the `SDL_AudioSpec` that SDL declares. -/
  | OpenAudio (freq : Int) (channels : Nat) (samples : Nat)
  /-- The call `SDL_CloseAudio()`. -/
  | CloseAudio
  /-- The call `SDL_PauseAudio(pause_on)`. -/
  | PauseAudio (pause_on : Int)
  deriving DecidableEq, Repr

/-- Outcomes that the code does not control: whether `malloc` returns a block,
what the block holds before it is written, and whether `SDL_OpenAudio`
succeeds. -/
structure Env where
  /-- Whether `malloc` returns a non-null pointer. -/
  mallocOk : Bool
  /-- Content of freshly allocated memory, slot by slot. -/
  junk : Nat → sample
  /-- Whether `SDL_OpenAudio` returns a non-negative value. -/
  openOk : Bool

/-- Result of a function that returns a value, updates the statics and may call SDL. -/
structure Out (α : Type) where
  /-- The returned value. -/
  ret : α
  /-- The statics after the call. -/
  state : State
  /-- The SDL calls made, in order. -/
  calls : List SDLCall
  deriving DecidableEq, Repr

/-- The state in which the program starts: all statics are zero (lines 51-56). -/
def State.initial : State :=
  { SndRate := 0, SndSize := 0, SndData := none, RPtr := 0, WPtr := 0, AudioPaused := 0 }

/-! ## Memory accesses -/

/-- Read of `a[i]`; `none` when `i` is outside the array. -/
def load (a : List sample) (i : Int) : Option sample :=
  if 0 ≤ i ∧ i < a.length then a[i.toNat]? else none

/-- Write `a[i] = v`; `none` when `i` is outside the array. -/
def store (a : List sample) (i : Int) (v : sample) : Option (List sample) :=
  if 0 ≤ i ∧ i < a.length then some (a.set i.toNat v) else none

/-- The call `malloc(n * sizeof(sample))`: a block of `n` samples of arbitrary content, or null. -/
def malloc (env : Env) (n : Nat) : Option (List sample) :=
  if env.mallocOk then some ((List.range n).map env.junk) else none

/-! ## The functions of `SndSDL.c` -/

/-- The copy loop of `AudioHandler` (lines 73-77), from index `J`. -/
def AudioHandler.loop (Length : Int) : Nat → Int → State → List sample →
    Option (State × List sample)
  | fuel, J, s, Stream =>
    if J < Length then
      match fuel with
      | 0 => none
      | fuel + 1 =>
        match s.SndData with
        | none => none
        | some buf =>
          match load buf s.RPtr with
          | none => none
          | some v0 =>
            match store Stream J v0 with
            | none => none
            | some Stream1 =>
              match load buf s.RPtr with
              | none => none
              | some v1 =>
                match store Stream1 (J + 1) v1 with
                | none => none
                | some Stream2 =>
                  AudioHandler.loop Length fuel (J + 2)
                    { s with RPtr := if s.RPtr < s.SndSize - 1 then s.RPtr + 1 else 0 }
                    Stream2
    else some (s, Stream)

/-- The function `AudioHandler` (lines 61-78).  `Stream` is the caller's output region, in
samples; `Length` is its size in bytes.  `Length /= sizeof(sample)` is an unsigned division
(`sizeof` has type `size_t`, 32 bits on the target) whose result is stored back in the `int`. -/
def AudioHandler (s : State) (Stream : List sample) (Length : Int) :
    Option (State × List sample) :=
  if s.SndRate = 0 then some (s, Stream)
  else
    let Length1 : Int := toInt32 (toUInt32 Length / sizeofSample)
    AudioHandler.loop Length1 Length1.toNat 0 s Stream

/-- The function `TrashAudio` (lines 142-159). -/
def TrashAudio (s : State) : State × List SDLCall :=
  let s1 : State := { s with SndRate := 0, AudioPaused := 0 }
  -- SDL_CloseAudio(); free(SndData) when it is not null
  let s2 : State := { s1 with SndData := none, SndSize := 0, RPtr := 0, WPtr := 0 }
  (s2, [SDLCall.CloseAudio])

/-- The buffer-clearing loop of `InitAudio` (lines 126-127), from index `J` (an `int`). -/
def InitAudio.clear (SndSize : Int) : Nat → Int → List sample → Option (List sample)
  | fuel, J, buf =>
    if J < SndSize then
      match fuel with
      | 0 => none
      | fuel + 1 =>
        match store buf J 0 with
        | none => none
        | some buf1 => InitAudio.clear SndSize fuel (J + 1) buf1
    else some buf

/-- The function `InitAudio` (lines 84-137).  `Rate` and `Latency` are `unsigned int`.  The
assignment `SndRate = Rate` (line 130) converts `Rate` to `int`, and so does
`AudioFormat.freq = Rate`; `AudioFormat.samples` is a `Uint16`.  The quotient stored in
`SndSize` is below `2^31`, so its conversion to `int` keeps the value. -/
def InitAudio (env : Env) (s : State) (Rate Latency : Nat) : Option (Out Nat) :=
  let t := TrashAudio s
  let s1 : State :=
    { t.1 with SndRate := 0, SndSize := 0, SndData := none, RPtr := 0, WPtr := 0,
               AudioPaused := 0 }
  if Rate < 8000 ∨ Latency = 0 then some { ret := 0, state := s1, calls := t.2 }
  else
    let s2 : State := { s1 with SndSize := ((Rate * Latency % 4294967296 / 1000 : Nat) : Int) }
    match malloc env s2.SndSize.toNat with
    | none => some { ret := 0, state := { s2 with SndData := none }, calls := t.2 }
    | some buf =>
      let s3 : State := { s2 with SndData := some buf }
      let calls1 := t.2 ++ [SDLCall.OpenAudio (toInt32 Rate) 2 (toUInt16 (s3.SndSize * 2))]
      if env.openOk = false then
        some { ret := 0, state := { s3 with SndData := none }, calls := calls1 }
      else
        match InitAudio.clear s3.SndSize s3.SndSize.toNat 0 buf with
        | none => none
        | some buf1 =>
          let s4 : State := { s3 with SndData := some buf1 }
          let s5 : State := { s4 with SndRate := toInt32 Rate }
          some { ret := toUInt32 s5.SndRate, state := s5,
                 calls := calls1 ++ [SDLCall.PauseAudio 0] }

/-- The function `PauseAudio` (lines 164-179). -/
def PauseAudio (s : State) (Switch : Int) : Out Int :=
  let Switch1 : Int := if Switch = 2 then (if s.AudioPaused ≠ 0 then 0 else 1) else Switch
  if 0 ≤ Switch1 ∧ Switch1 ≤ 1 ∧ Switch1 ≠ s.AudioPaused then
    { ret := Switch1, state := { s with AudioPaused := Switch1 },
      calls := [SDLCall.PauseAudio Switch1] }
  else { ret := s.AudioPaused, state := s, calls := [] }

/-- The function `GetFreeAudio` (lines 184-186); the `int` value is returned as `unsigned int`. -/
def GetFreeAudio (s : State) : Nat :=
  toUInt32
    (if s.SndRate = 0 then 0
     else if s.RPtr ≥ s.WPtr then s.RPtr - s.WPtr
     else s.RPtr - s.WPtr + s.SndSize)

/-- The copy loop of `WriteAudio` (lines 200-204), from index `J` (an `unsigned int`). -/
def WriteAudio.loop (Data : List sample) (Length : Nat) : Nat → Nat → State →
    Option (State × Nat)
  | fuel, J, s =>
    if J < Length ∧ s.RPtr ≠ s.WPtr then
      match fuel with
      | 0 => none
      | fuel + 1 =>
        match Data[J]? with
        | none => none
        | some d =>
          match s.SndData with
          | none => none
          | some buf =>
            match store buf s.WPtr d with
            | none => none
            | some buf1 =>
              let W1 : Int := s.WPtr + 1
              WriteAudio.loop Data Length fuel (J + 1)
                { s with SndData := some buf1, WPtr := if W1 ≥ s.SndSize then 0 else W1 }
    else some (s, J)

/-- The function `WriteAudio` (lines 192-208).  `Data` is the caller's array, `Length` the
requested number of samples; the result is the new state and the number of samples copied. -/
def WriteAudio (s : State) (Data : List sample) (Length : Nat) : Option (State × Nat) :=
  if s.SndRate = 0 then some (s, 0)
  else WriteAudio.loop Data Length Length 0 s

/-- The buffer-clearing loop of `ResetAudio` (lines 219-220), from index `J`; `J` is an
`unsigned int`, so the `int` `SndSize` is converted to `unsigned int` for the comparison. -/
def ResetAudio.clear (SndSize : Int) : Nat → Nat → List sample → Option (List sample)
  | fuel, J, buf =>
    if J < toUInt32 SndSize then
      match fuel with
      | 0 => none
      | fuel + 1 =>
        match store buf (J : Int) 0 with
        | none => none
        | some buf1 => ResetAudio.clear SndSize fuel (J + 1) buf1
    else some buf

/-- The function `ResetAudio` (lines 213-222). -/
def ResetAudio (s : State) : Option State :=
  let s1 : State := { s with RPtr := 0, WPtr := 0 }
  match s1.SndData with
  | none => some s1
  | some buf =>
    match ResetAudio.clear s1.SndSize (toUInt32 s1.SndSize) 0 buf with
    | none => none
    | some buf1 => some { s1 with SndData := some buf1 }

/-! ## Fixtures used by the concrete evaluations -/

/-- An environment in which `malloc` and `SDL_OpenAudio` both succeed; fresh memory holds
nonzero values, so that the clearing loop of `InitAudio` is observable. -/
def Env.allOk : Env := { mallocOk := true, junk := fun i => (i : Int) + 1, openOk := true }

/-- The statics right after a successful `InitAudio(8000, 1)`: eight cleared slots. -/
def State.fresh8 : State :=
  { SndRate := 8000, SndSize := 8, SndData := some [0, 0, 0, 0, 0, 0, 0, 0], RPtr := 0,
    WPtr := 0, AudioPaused := 0 }

/-- An eight-slot engine holding the three unread samples 1, 2, 3 at the read pointer:
`InitAudio(8000, 1)`, a 3-frame `AudioHandler` call, `WriteAudio` of 1, 2, 3 and a 5-frame
`AudioHandler` call lead to it. -/
def State.loaded8 : State :=
  { SndRate := 8000, SndSize := 8, SndData := some [1, 2, 3, 0, 0, 0, 0, 0], RPtr := 0,
    WPtr := 3, AudioPaused := 0 }

/-! ## Sequences of calls -/

/-- A call into the module with its arguments; an `InitAudio` call also carries the outcomes
of `malloc` and `SDL_OpenAudio`. -/
inductive Call where
  /-- The call `InitAudio(Rate, Latency)`. -/
  | InitAudio (env : Env) (Rate Latency : Nat)
  /-- The call `TrashAudio()`. -/
  | TrashAudio
  /-- The call `WriteAudio(Data, Length)`. -/
  | WriteAudio (Data : List sample) (Length : Nat)
  /-- The callback `AudioHandler(0, Stream, Length)`. -/
  | AudioHandler (Stream : List sample) (Length : Int)
  /-- The call `PauseAudio(Switch)`. -/
  | PauseAudio (Switch : Int)
  /-- The call `GetFreeAudio()`. -/
  | GetFreeAudio
  /-- The call `ResetAudio()`. -/
  | ResetAudio

/-- The statics after one call; `none` when the call has undefined behaviour. -/
def Call.run (s : State) : Call → Option State
  | Call.InitAudio env Rate Latency =>
    (SndSDL.InitAudio env s Rate Latency).map (fun o => o.state)
  | Call.TrashAudio => some (SndSDL.TrashAudio s).1
  | Call.WriteAudio Data Length =>
    (SndSDL.WriteAudio s Data Length).map (fun p => p.1)
  | Call.AudioHandler Stream Length =>
    (SndSDL.AudioHandler s Stream Length).map (fun p => p.1)
  | Call.PauseAudio Switch => some (SndSDL.PauseAudio s Switch).state
  | Call.GetFreeAudio => some s
  | Call.ResetAudio => SndSDL.ResetAudio s

/-- The statics after a sequence of calls made in order. -/
def Call.runAll (s : State) : List Call → Option State
  | [] => some s
  | c :: cs =>
    match Call.run s c with
    | none => none
    | some s1 => Call.runAll s1 cs

/-- The ring-buffer invariant of the data model: when `SndRate != 0` the buffer exists with
`SndSize >= 1` slots and both pointers are in `[0, SndSize)`. -/
def State.RingOk (s : State) : Prop :=
  s.SndRate ≠ 0 →
    ∃ buf, s.SndData = some buf ∧ (buf.length : Int) = s.SndSize ∧ 1 ≤ s.SndSize ∧
      0 ≤ s.RPtr ∧ s.RPtr < s.SndSize ∧ 0 ≤ s.WPtr ∧ s.WPtr < s.SndSize

/-- Whether the capacity computed by an `InitAudio` call (line 102) is at least 1, that is
whether `Rate * Latency` reduced modulo `2^32` is at least 1000; true of every other call. -/
def Call.capacityOk : Call → Prop
  | Call.InitAudio _ Rate Latency => 1000 ≤ Rate * Latency % 4294967296
  | _ => True

/-- The statics right after `InitAudio(65536, 65536)` when `malloc(0)` returns a block and the
device opens: a nonzero rate with a buffer of zero slots. -/
def State.hollow : State :=
  { SndRate := 65536, SndSize := 0, SndData := some [], RPtr := 0, WPtr := 0,
    AudioPaused := 0 }

/-! ## Auxiliary lemmas -/

theorem store_eq_some (a : List sample) (i : Nat) (v : sample) (h : i < a.length) :
    store a (i : Int) v = some (a.set i v) := by
  unfold store
  have h1 : (0 : Int) ≤ (i : Int) ∧ (i : Int) < (a.length : Int) := by omega
  simp [h1]

theorem load_eq_getElem? (a : List sample) (i : Nat) (h : i < a.length) :
    load a (i : Int) = a[i]? := by
  unfold load
  have h1 : (0 : Int) ≤ (i : Int) ∧ (i : Int) < (a.length : Int) := by omega
  simp [h1]

theorem toUInt32_natCast (n : Nat) (h : n < 4294967296) : toUInt32 (n : Int) = n := by
  unfold toUInt32
  omega

theorem InitAudio_clear_spec (n : Nat) : ∀ (fuel j : Nat) (buf : List sample),
    buf.length = n → j ≤ n → n - j ≤ fuel →
    ∃ r, InitAudio.clear (n : Int) fuel (j : Int) buf = some r ∧ r.length = n ∧
      (∀ i, i < j → r[i]? = buf[i]?) ∧ (∀ i, j ≤ i → i < n → r[i]? = some 0) := by
  intro fuel
  induction fuel with
  | zero =>
    intro j buf hl hj hf
    have hjn : ¬ ((j : Int) < (n : Int)) := by omega
    refine ⟨buf, ?_, hl, fun _ _ => rfl, ?_⟩
    · unfold InitAudio.clear
      simp [hjn]
    · intro i h1 h2
      omega
  | succ f ih =>
    intro j buf hl hj hf
    by_cases hjn : j < n
    · have hjn1 : ((j : Int) < (n : Int)) := by omega
      obtain ⟨r, hr, hrl, hlo, hhi⟩ := ih (j + 1) (buf.set j 0) (by simp [hl]) (by omega) (by omega)
      refine ⟨r, ?_, hrl, ?_, ?_⟩
      · unfold InitAudio.clear
        simp only [hjn1, if_true]
        rw [store_eq_some buf j 0 (by omega)]
        simpa using hr
      · intro i hi
        rw [hlo i (by omega), List.getElem?_set_ne (by omega)]
      · intro i h1 h2
        by_cases hij : i = j
        · subst hij
          rw [hlo i (by omega), List.getElem?_set_self]
          simp [hl, hjn]
        · exact hhi i (by omega) h2
    · have hjn1 : ¬ ((j : Int) < (n : Int)) := by omega
      refine ⟨buf, ?_, hl, fun _ _ => rfl, ?_⟩
      · unfold InitAudio.clear
        simp [hjn1]
      · intro i h1 h2
        omega

theorem InitAudio_clear_eq_replicate (n : Nat) (buf : List sample) (hl : buf.length = n) :
    InitAudio.clear (n : Int) n 0 buf = some (List.replicate n 0) := by
  obtain ⟨r, hr, hrl, -, hhi⟩ := InitAudio_clear_spec n n 0 buf hl (Nat.zero_le _) (by omega)
  have hr0 : InitAudio.clear (n : Int) n 0 buf = some r := by simpa using hr
  rw [hr0]
  congr 1
  apply List.ext_getElem?
  intro i
  by_cases hi : i < n
  · rw [hhi i (Nat.zero_le _) hi]
    simp [List.getElem?_replicate, hi]
  · rw [List.getElem?_eq_none (by omega), List.getElem?_eq_none (by simp; omega)]


theorem toUInt32_toInt32 (n : Nat) (h : n < 4294967296) : toUInt32 (toInt32 n) = n := by
  unfold toUInt32 toInt32
  split <;> omega

theorem toInt32_ne_zero (n : Nat) (h0 : 0 < n) (h : n < 4294967296) : toInt32 n ≠ 0 := by
  unfold toInt32
  split <;> omega

theorem toInt32_of_lt (n : Nat) (h : n < 2147483648) : toInt32 n = (n : Int) := by
  unfold toInt32
  split <;> omega

theorem InitAudio_success (env : Env) (s : State) (Rate Latency : Nat)
    (h1 : 8000 ≤ Rate) (h2 : Latency ≠ 0) (hm : env.mallocOk = true) (ho : env.openOk = true) :
    InitAudio env s Rate Latency = some
      { ret := toUInt32 (toInt32 Rate),
        state :=
          { SndRate := toInt32 Rate,
            SndSize := ((Rate * Latency % 4294967296 / 1000 : Nat) : Int),
            SndData := some (List.replicate (Rate * Latency % 4294967296 / 1000) 0),
            RPtr := 0, WPtr := 0, AudioPaused := 0 },
        calls := [SDLCall.CloseAudio,
                  SDLCall.OpenAudio (toInt32 Rate) 2
                    (toUInt16 (((Rate * Latency % 4294967296 / 1000 : Nat) : Int) * 2)),
                  SDLCall.PauseAudio 0] } := by
  have hc : ¬ (Rate < 8000 ∨ Latency = 0) := by omega
  have hclear := InitAudio_clear_eq_replicate (Rate * Latency % 4294967296 / 1000)
    ((List.range (Rate * Latency % 4294967296 / 1000)).map env.junk) (by simp)
  simp only [InitAudio, TrashAudio, malloc, hc, hm, ho, if_true, if_false, Int.toNat_ofNat,
    hclear]
  simp

theorem InitAudio_reject (env : Env) (s : State) (Rate Latency : Nat)
    (h : Rate < 8000 ∨ Latency = 0) :
    InitAudio env s Rate Latency =
      some { ret := 0, state := State.initial, calls := [SDLCall.CloseAudio] } := by
  simp only [InitAudio, TrashAudio, h, if_true]
  rfl

theorem InitAudio_malloc_fails (env : Env) (s : State) (Rate Latency : Nat)
    (h1 : 8000 ≤ Rate) (h2 : Latency ≠ 0) (hm : env.mallocOk = false) :
    InitAudio env s Rate Latency =
      some { ret := 0,
             state := { State.initial with
                        SndSize := ((Rate * Latency % 4294967296 / 1000 : Nat) : Int) },
             calls := [SDLCall.CloseAudio] } := by
  have hc : ¬ (Rate < 8000 ∨ Latency = 0) := by omega
  simp only [InitAudio, TrashAudio, malloc, hc, hm, if_false]
  rfl

theorem InitAudio_open_fails (env : Env) (s : State) (Rate Latency : Nat)
    (h1 : 8000 ≤ Rate) (h2 : Latency ≠ 0) (hm : env.mallocOk = true)
    (ho : env.openOk = false) :
    InitAudio env s Rate Latency =
      some { ret := 0,
             state := { State.initial with
                        SndSize := ((Rate * Latency % 4294967296 / 1000 : Nat) : Int) },
             calls := [SDLCall.CloseAudio,
               SDLCall.OpenAudio (toInt32 Rate) 2
                 (toUInt16 (((Rate * Latency % 4294967296 / 1000 : Nat) : Int) * 2))] } := by
  have hc : ¬ (Rate < 8000 ∨ Latency = 0) := by omega
  simp only [InitAudio, TrashAudio, malloc, hc, hm, ho, if_true, if_false]
  rfl


theorem ring_step_emod (R c m : Int) (h1 : R < c) :
    ((if R < c - 1 then R + 1 else 0) + m) % c = (R + (1 + m)) % c := by
  split
  · congr 1
    ring
  · have hR : R = c - 1 := by omega
    subst hR
    have : c - 1 + (1 + m) = m + c := by ring
    rw [this, Int.add_emod_self, zero_add]

theorem AudioHandler_loop_spec (buf : List sample) (c n : Nat) (hc : buf.length = c)
    (rate W P : Int) :
    ∀ (fuel k : Nat) (R : Int) (Stream : List sample),
      0 ≤ R → R < (c : Int) → k ≤ n → 2 * n ≤ Stream.length → n - k ≤ fuel →
      ∃ Stream',
        AudioHandler.loop ((2 * n : Nat) : Int) fuel ((2 * k : Nat) : Int)
            { SndRate := rate, SndSize := (c : Int), SndData := some buf, RPtr := R, WPtr := W,
              AudioPaused := P } Stream =
          some ({ SndRate := rate, SndSize := (c : Int), SndData := some buf,
                  RPtr := (R + ((n - k : Nat) : Int)) % (c : Int), WPtr := W,
                  AudioPaused := P }, Stream') ∧
        Stream'.length = Stream.length ∧
        (∀ i, (i < 2 * k ∨ 2 * n ≤ i) → Stream'[i]? = Stream[i]?) ∧
        (∀ j, k ≤ j → j < n →
          Stream'[2 * j]? = buf[((R + ((j - k : Nat) : Int)) % (c : Int)).toNat]? ∧
          Stream'[2 * j + 1]? = buf[((R + ((j - k : Nat) : Int)) % (c : Int)).toNat]?) := by
  intro fuel
  induction fuel with
  | zero =>
    intro k R Stream h0 h1 hk hS hf
    have hkn : k = n := by omega
    subst hkn
    refine ⟨Stream, ?_, rfl, fun _ _ => rfl, ?_⟩
    · unfold AudioHandler.loop
      simp [Int.emod_eq_of_lt h0 h1]
    · intro j h2 h3
      omega
  | succ f ih =>
    intro k R Stream h0 h1 hk hS hf
    by_cases hkn : k = n
    · subst hkn
      refine ⟨Stream, ?_, rfl, fun _ _ => rfl, ?_⟩
      · unfold AudioHandler.loop
        simp [Int.emod_eq_of_lt h0 h1]
      · intro j h2 h3
        omega
    · have hlt : ((2 * k : Nat) : Int) < ((2 * n : Nat) : Int) := by omega
      obtain ⟨r, hr⟩ : ∃ r : Nat, R = (r : Int) := ⟨R.toNat, by omega⟩
      have hrc : r < c := by omega
      have hrb : r < buf.length := by omega
      have hload : load buf R = some buf[r] := by
        rw [hr, load_eq_getElem? buf r hrb, List.getElem?_eq_getElem hrb]
      have hst1 : store Stream ((2 * k : Nat) : Int) buf[r] = some (Stream.set (2 * k) buf[r]) :=
        store_eq_some Stream (2 * k) _ (by omega)
      have hst2 : store (Stream.set (2 * k) buf[r]) (((2 * k : Nat) : Int) + 1) buf[r] =
          some ((Stream.set (2 * k) buf[r]).set (2 * k + 1) buf[r]) := by
        have := store_eq_some (Stream.set (2 * k) buf[r]) (2 * k + 1) buf[r] (by simp; omega)
        simpa using this
      have hJ : ((2 * k : Nat) : Int) + 2 = ((2 * (k + 1) : Nat) : Int) := by omega
      have hR1a : 0 ≤ (if R < (c : Int) - 1 then R + 1 else 0) := by split <;> omega
      have hR1b : (if R < (c : Int) - 1 then R + 1 else 0) < (c : Int) := by
        split <;> omega
      obtain ⟨S', hS', hlen, hframe, hout⟩ := ih (k + 1)
        (if R < (c : Int) - 1 then R + 1 else 0)
        ((Stream.set (2 * k) buf[r]).set (2 * k + 1) buf[r])
        hR1a hR1b (by omega) (by simp; omega) (by omega)
      have e1 : ∀ m : Nat, k + 1 ≤ m →
          ((if R < (c : Int) - 1 then R + 1 else 0) + ((m - (k + 1) : Nat) : Int)) % (c : Int) =
            (R + ((m - k : Nat) : Int)) % (c : Int) := by
        intro m hm
        rw [ring_step_emod R c _ h1]
        congr 2
        omega
      rw [e1 n (by omega)] at hS'
      refine ⟨S', ?_, ?_, ?_, ?_⟩
      · unfold AudioHandler.loop
        simp only [hlt, if_true, hload, hst1, hst2, hJ, hS']
      · simpa using hlen
      · intro i hi
        rw [hframe i (by omega), List.getElem?_set_ne (by omega), List.getElem?_set_ne (by omega)]
      · intro j h2 h3
        by_cases hjk : j = k
        · subst hjk
          have e0 : (R + ((j - j : Nat) : Int)) % (c : Int) = (r : Int) := by
            simp only [Nat.sub_self, Nat.cast_zero, add_zero]
            rw [hr]
            exact Int.emod_eq_of_lt (by omega) (by omega)
          rw [e0, hframe (2 * j) (by omega), hframe (2 * j + 1) (by omega)]
          simp only [Int.toNat_ofNat]
          constructor
          · rw [List.getElem?_set_ne (by omega), List.getElem?_set_self (by omega),
              List.getElem?_eq_getElem hrb]
          · rw [List.getElem?_set_self (by simp; omega), List.getElem?_eq_getElem hrb]
        · have := hout j (by omega) h3
          rw [e1 j (by omega)] at this
          exact this


theorem emod_wrap (x c : Int) (h0 : 0 ≤ x) (h1 : x < 2 * c) :
    x % c = if x < c then x else x - c := by
  split
  · exact Int.emod_eq_of_lt h0 (by assumption)
  · calc x % c = (x - c + c) % c := by rw [sub_add_cancel]
      _ = (x - c) % c := Int.add_emod_self
      _ = x - c := Int.emod_eq_of_lt (by omega) (by omega)

theorem write_step_emod (W c m : Int) (h1 : W < c) :
    ((if W + 1 ≥ c then 0 else W + 1) + m) % c = (W + (1 + m)) % c := by
  split
  · have hW : W = c - 1 := by omega
    subst hW
    have : c - 1 + (1 + m) = m + c := by ring
    rw [this, Int.add_emod_self, zero_add]
  · congr 1
    ring

theorem WriteAudio_loop_spec (Data : List sample) (Length c : Nat) (rate R P : Int)
    (hR0 : 0 ≤ R) (hR1 : R < (c : Int)) (hD : Length ≤ Data.length) :
    ∀ (fuel J : Nat) (W : Int) (buf : List sample),
      buf.length = c → 0 ≤ W → W < (c : Int) → J ≤ Length → Length - J ≤ fuel →
      ∃ buf',
        WriteAudio.loop Data Length fuel J
            { SndRate := rate, SndSize := (c : Int), SndData := some buf, RPtr := R, WPtr := W,
              AudioPaused := P } =
          some ({ SndRate := rate, SndSize := (c : Int), SndData := some buf', RPtr := R,
                  WPtr := (W + ((min (Length - J)
                    (if R ≥ W then R - W else R - W + (c : Int)).toNat : Nat) : Int)) % (c : Int),
                  AudioPaused := P },
                J + min (Length - J) (if R ≥ W then R - W else R - W + (c : Int)).toNat) ∧
        buf'.length = c ∧
        (∀ j, j < min (Length - J) (if R ≥ W then R - W else R - W + (c : Int)).toNat →
          buf'[((W + (j : Int)) % (c : Int)).toNat]? = Data[J + j]?) ∧
        (∀ i, (∀ j, j < min (Length - J) (if R ≥ W then R - W else R - W + (c : Int)).toNat →
            i ≠ ((W + (j : Int)) % (c : Int)).toNat) → buf'[i]? = buf[i]?) := by
  intro fuel
  induction fuel with
  | zero =>
    intro J W buf hl hW0 hW1 hJ hf
    have hJL : J = Length := by omega
    subst hJL
    refine ⟨buf, ?_, hl, ?_, fun _ _ => rfl⟩
    · unfold WriteAudio.loop
      simp [Int.emod_eq_of_lt hW0 hW1]
    · intro j hj
      simp at hj
  | succ f ih =>
    intro J W buf hl hW0 hW1 hJ hf
    by_cases hcond : J < Length ∧ R ≠ W
    · obtain ⟨hJL, hRW⟩ := hcond
      obtain ⟨w, hw⟩ : ∃ w : Nat, W = (w : Int) := ⟨W.toNat, by omega⟩
      subst hw
      have hwc : w < c := by omega
      have hJD : J < Data.length := by omega
      have hst : store buf (w : Int) Data[J] = some (buf.set w Data[J]) :=
        store_eq_some buf w _ (by omega)
      have hW1a : 0 ≤ (if (w : Int) + 1 ≥ (c : Int) then 0 else (w : Int) + 1) := by
        split <;> omega
      have hW1b : (if (w : Int) + 1 ≥ (c : Int) then 0 else (w : Int) + 1) < (c : Int) := by
        split <;> omega
      obtain ⟨b', hb', hlen, hcont, hframe⟩ := ih (J + 1)
        (if (w : Int) + 1 ≥ (c : Int) then 0 else (w : Int) + 1) (buf.set w Data[J])
        (by simp [hl]) hW1a hW1b (by omega) (by omega)
      -- the free count drops by one
      have hF : min (Length - J) (if R ≥ (w : Int) then R - (w : Int)
            else R - (w : Int) + (c : Int)).toNat =
          1 + min (Length - (J + 1))
            (if R ≥ (if (w : Int) + 1 ≥ (c : Int) then 0 else (w : Int) + 1)
              then R - (if (w : Int) + 1 ≥ (c : Int) then 0 else (w : Int) + 1)
              else R - (if (w : Int) + 1 ≥ (c : Int) then 0 else (w : Int) + 1)
                + (c : Int)).toNat := by
        split_ifs <;> omega
      have hFlt : min (Length - (J + 1))
            (if R ≥ (if (w : Int) + 1 ≥ (c : Int) then 0 else (w : Int) + 1)
              then R - (if (w : Int) + 1 ≥ (c : Int) then 0 else (w : Int) + 1)
              else R - (if (w : Int) + 1 ≥ (c : Int) then 0 else (w : Int) + 1)
                + (c : Int)).toNat + 1 < c := by
        split_ifs <;> omega
      generalize min (Length - (J + 1))
            (if R ≥ (if (w : Int) + 1 ≥ (c : Int) then 0 else (w : Int) + 1)
              then R - (if (w : Int) + 1 ≥ (c : Int) then 0 else (w : Int) + 1)
              else R - (if (w : Int) + 1 ≥ (c : Int) then 0 else (w : Int) + 1)
                + (c : Int)).toNat = w1 at hb' hcont hframe hF hFlt
      rw [hF]
      have estep : ∀ m : Nat,
          ((if (w : Int) + 1 ≥ (c : Int) then 0 else (w : Int) + 1) + (m : Int)) % (c : Int) =
            ((w : Int) + ((1 + m : Nat) : Int)) % (c : Int) := by
        intro m
        rw [write_step_emod (w : Int) c _ hW1]
        congr 2
      have hne : ∀ m : Nat, 0 < m → m < c →
          w ≠ (((w : Int) + (m : Int)) % (c : Int)).toNat := by
        intro m hm0 hmc
        rw [emod_wrap _ _ (by omega) (by omega)]
        split <;> omega
      rw [estep w1] at hb'
      refine ⟨b', ?_, ?_, ?_, ?_⟩
      · unfold WriteAudio.loop
        have hc2 : J < Length ∧ R ≠ (w : Int) := ⟨hJL, hRW⟩
        rw [if_pos hc2]
        simp only [List.getElem?_eq_getElem hJD, hst, hb', Nat.add_assoc]
      · simpa [hl] using hlen
      · intro j hj
        rcases Nat.eq_zero_or_pos j with hj0 | hjpos
        · subst hj0
          have e0 : (((w : Int) + ((0 : Nat) : Int)) % (c : Int)).toNat = w := by
            simp only [Nat.cast_zero, add_zero]
            rw [Int.emod_eq_of_lt (by omega) (by omega)]
            simp
          rw [e0, hframe w]
          · rw [List.getElem?_set_self (by omega), Nat.add_zero,
              List.getElem?_eq_getElem hJD]
          · intro j' hj'
            rw [estep j']
            exact hne (1 + j') (by omega) (by omega)
        · have := hcont (j - 1) (by omega)
          rw [estep (j - 1)] at this
          have e1 : 1 + (j - 1) = j := by omega
          have e2 : J + 1 + (j - 1) = J + j := by omega
          rw [e1, e2] at this
          exact this
      · intro i hi
        rw [hframe i]
        · have := hi 0 (by omega)
          rw [List.getElem?_set_ne]
          intro h
          apply this
          simp only [Nat.cast_zero, add_zero]
          rw [Int.emod_eq_of_lt (by omega) (by omega)]
          simpa using h.symm
        · intro j' hj'
          rw [estep j']
          exact hi (1 + j') (by omega)
    · have hw0 : min (Length - J) (if R ≥ W then R - W else R - W + (c : Int)).toNat = 0 := by
        by_cases hJL : J < Length
        · have hRW : R = W := by
            by_contra h
            exact hcond ⟨hJL, h⟩
          subst hRW
          simp
        · have : Length - J = 0 := by omega
          simp [this]
      rw [hw0]
      refine ⟨buf, ?_, hl, ?_, fun _ _ => rfl⟩
      · unfold WriteAudio.loop
        simp [hcond, Int.emod_eq_of_lt hW0 hW1]
      · intro j hj
        omega



theorem WriteAudio_of_ptr_eq (s : State) (Data : List sample) (Length : Nat)
    (h : s.RPtr = s.WPtr) : WriteAudio s Data Length = some (s, 0) := by
  unfold WriteAudio
  split
  · rfl
  · unfold WriteAudio.loop
    simp [h]

theorem AudioHandler_length (n : Nat) (hn : 4 * n < 2147483648) :
    toInt32 (toUInt32 ((4 * n : Nat) : Int) / sizeofSample) = ((2 * n : Nat) : Int) := by
  rw [toUInt32_natCast _ (by omega)]
  unfold toInt32 sizeofSample
  have e : 4 * n / 2 = 2 * n := by omega
  rw [e]
  have h2 : 2 * n % 4294967296 = 2 * n := Nat.mod_eq_of_lt (by omega)
  rw [h2]
  simp only [ite_eq_left_iff]
  intro h
  omega

theorem AudioHandler_spec (buf : List sample) (c n : Nat) (hc : buf.length = c)
    (rate R W P : Int) (Stream : List sample) (hrate : rate ≠ 0)
    (h0 : 0 ≤ R) (h1 : R < (c : Int)) (hS : 2 * n ≤ Stream.length)
    (hn : 4 * n < 2147483648) :
    ∃ Stream',
      AudioHandler
          { SndRate := rate, SndSize := (c : Int), SndData := some buf, RPtr := R, WPtr := W,
            AudioPaused := P } Stream ((4 * n : Nat) : Int) =
        some ({ SndRate := rate, SndSize := (c : Int), SndData := some buf,
                RPtr := (R + (n : Int)) % (c : Int), WPtr := W, AudioPaused := P }, Stream') ∧
      Stream'.length = Stream.length ∧
      (∀ i, 2 * n ≤ i → Stream'[i]? = Stream[i]?) ∧
      (∀ j, j < n →
        Stream'[2 * j]? = buf[((R + (j : Int)) % (c : Int)).toNat]? ∧
        Stream'[2 * j + 1]? = buf[((R + (j : Int)) % (c : Int)).toNat]?) := by
  obtain ⟨S', hS', hlen, hframe, hout⟩ :=
    AudioHandler_loop_spec buf c n hc rate W P (2 * n) 0 R Stream h0 h1 (Nat.zero_le _) hS
      (by omega)
  refine ⟨S', ?_, hlen, fun i hi => hframe i (Or.inr hi), ?_⟩
  · unfold AudioHandler
    simp only [hrate, if_false, AudioHandler_length n hn, Int.toNat_ofNat]
    simpa using hS'
  · intro j hj
    simpa using hout j (Nat.zero_le _) hj


theorem GetFreeAudio_eq (c : Nat) (rate R W P : Int) (d : Option (List sample))
    (hrate : rate ≠ 0) (hR0 : 0 ≤ R) (hR1 : R < (c : Int)) (hW0 : 0 ≤ W) (hW1 : W < (c : Int))
    (hc : c < 2147483648) :
    GetFreeAudio { SndRate := rate, SndSize := (c : Int), SndData := d, RPtr := R, WPtr := W,
                   AudioPaused := P } =
      (if R ≥ W then R - W else R - W + (c : Int)).toNat := by
  unfold GetFreeAudio toUInt32
  simp only [hrate, if_false]
  split_ifs <;> omega

theorem GetFreeAudio_of_ptr_eq (s : State) (h : s.RPtr = s.WPtr) : GetFreeAudio s = 0 := by
  unfold GetFreeAudio toUInt32
  split_ifs <;> simp_all

theorem GetFreeAudio_of_rate_zero (s : State) (h : s.SndRate = 0) : GetFreeAudio s = 0 := by
  unfold GetFreeAudio toUInt32
  simp [h]

theorem WriteAudio_spec (Data : List sample) (Length c : Nat) (rate R W P : Int)
    (buf : List sample) (hrate : rate ≠ 0) (hl : buf.length = c)
    (hR0 : 0 ≤ R) (hR1 : R < (c : Int)) (hW0 : 0 ≤ W) (hW1 : W < (c : Int))
    (hD : Length ≤ Data.length) (hc : c < 2147483648) :
    ∃ buf',
      WriteAudio { SndRate := rate, SndSize := (c : Int), SndData := some buf, RPtr := R,
                   WPtr := W, AudioPaused := P } Data Length =
        some ({ SndRate := rate, SndSize := (c : Int), SndData := some buf', RPtr := R,
                WPtr := (W + ((min Length (GetFreeAudio
                  { SndRate := rate, SndSize := (c : Int), SndData := some buf, RPtr := R,
                    WPtr := W, AudioPaused := P }) : Nat) : Int)) % (c : Int),
                AudioPaused := P },
              min Length (GetFreeAudio
                { SndRate := rate, SndSize := (c : Int), SndData := some buf, RPtr := R,
                  WPtr := W, AudioPaused := P })) ∧
      buf'.length = c ∧
      (∀ j, j < min Length (GetFreeAudio
                { SndRate := rate, SndSize := (c : Int), SndData := some buf, RPtr := R,
                  WPtr := W, AudioPaused := P }) →
        buf'[((W + (j : Int)) % (c : Int)).toNat]? = Data[j]?) ∧
      (∀ i, (∀ j, j < min Length (GetFreeAudio
                { SndRate := rate, SndSize := (c : Int), SndData := some buf, RPtr := R,
                  WPtr := W, AudioPaused := P }) →
          i ≠ ((W + (j : Int)) % (c : Int)).toNat) → buf'[i]? = buf[i]?) := by
  rw [GetFreeAudio_eq c rate R W P (some buf) hrate hR0 hR1 hW0 hW1 hc]
  obtain ⟨b', hb', hlen, hcont, hframe⟩ :=
    WriteAudio_loop_spec Data Length c rate R P hR0 hR1 hD Length 0 W buf hl hW0 hW1
      (Nat.zero_le _) (by omega)
  simp only [Nat.sub_zero, Nat.zero_add] at hb' hcont hframe
  refine ⟨b', ?_, hlen, hcont, hframe⟩
  unfold WriteAudio
  simp only [hrate, if_false]
  exact hb'

theorem write_ptr_meets_iff (c L : Nat) (R W : Int)
    (hR0 : 0 ≤ R) (hR1 : R < (c : Int)) (hW0 : 0 ≤ W) (hW1 : W < (c : Int)) :
    (W + ((min L (if R ≥ W then R - W else R - W + (c : Int)).toNat : Nat) : Int)) % (c : Int)
        = R ↔
      (if R ≥ W then R - W else R - W + (c : Int)).toNat ≤ L := by
  rw [emod_wrap _ _ (by omega) (by split_ifs <;> omega)]
  split_ifs <;> omega


/-- Capacity without wrap-around: when the product `Rate * Latency` fits in 32 bits, a
successful `InitAudio` stores `Rate * Latency / 1000`, which is at least 8. -/
theorem InitAudio_capacity_of_no_wrap (env : Env) (s : State) (Rate Latency : Nat)
    (h1 : 8000 ≤ Rate) (h2 : 1 ≤ Latency) (hm : env.mallocOk = true)
    (ho : env.openOk = true) (hfit : Rate * Latency < 4294967296) :
    ∃ o, InitAudio env s Rate Latency = some o ∧
      o.state.SndSize = ((Rate * Latency / 1000 : Nat) : Int) ∧ 8 ≤ o.state.SndSize := by
  refine ⟨_, InitAudio_success env s Rate Latency h1 (by omega) hm ho, ?_, ?_⟩
  · simp only [Nat.mod_eq_of_lt hfit]
  · simp only [Nat.mod_eq_of_lt hfit]
    have : 8000 * 1 ≤ Rate * Latency := Nat.mul_le_mul h1 h2
    omega

theorem ResetAudio_clear_spec (n : Nat) (SndSize : Int) (hn : toUInt32 SndSize = n) :
    ∀ (fuel j : Nat) (buf : List sample),
      buf.length = n → j ≤ n → n - j ≤ fuel →
      ∃ r, ResetAudio.clear SndSize fuel j buf = some r ∧ r.length = n ∧
        (∀ i, i < j → r[i]? = buf[i]?) ∧ (∀ i, j ≤ i → i < n → r[i]? = some 0) := by
  intro fuel
  induction fuel with
  | zero =>
    intro j buf hl hj hf
    have hjn : ¬ (j < n) := by omega
    refine ⟨buf, ?_, hl, fun _ _ => rfl, ?_⟩
    · unfold ResetAudio.clear
      rw [hn, if_neg hjn]
    · intro i h1 h2
      omega
  | succ f ih =>
    intro j buf hl hj hf
    by_cases hjn : j < n
    · obtain ⟨r, hr, hrl, hlo, hhi⟩ :=
        ih (j + 1) (buf.set j 0) (by simp [hl]) (by omega) (by omega)
      refine ⟨r, ?_, hrl, ?_, ?_⟩
      · unfold ResetAudio.clear
        rw [hn, if_pos hjn]
        simp only [store_eq_some buf j 0 (by omega)]
        exact hr
      · intro i hi
        rw [hlo i (by omega), List.getElem?_set_ne (by omega)]
      · intro i h1 h2
        by_cases hij : i = j
        · subst hij
          rw [hlo i (by omega), List.getElem?_set_self (by omega)]
        · exact hhi i (by omega) h2
    · refine ⟨buf, ?_, hl, fun _ _ => rfl, ?_⟩
      · unfold ResetAudio.clear
        rw [hn, if_neg hjn]
      · intro i h1 h2
        omega

theorem ResetAudio_clear_eq_replicate (n : Nat) (SndSize : Int) (hn : toUInt32 SndSize = n)
    (buf : List sample) (hl : buf.length = n) :
    ResetAudio.clear SndSize n 0 buf = some (List.replicate n 0) := by
  obtain ⟨r, hr, hrl, -, hhi⟩ :=
    ResetAudio_clear_spec n SndSize hn n 0 buf hl (Nat.zero_le _) (by omega)
  rw [hr]
  congr 1
  apply List.ext_getElem?
  intro i
  by_cases hi : i < n
  · rw [hhi i (Nat.zero_le _) hi, List.getElem?_replicate, if_pos hi]
  · rw [List.getElem?_eq_none (by omega), List.getElem?_eq_none (by simp; omega)]

theorem ResetAudio_with_buffer (c : Nat) (rate R W P : Int) (buf : List sample)
    (hl : buf.length = c) (hc : c < 4294967296) :
    ResetAudio { SndRate := rate, SndSize := (c : Int), SndData := some buf, RPtr := R,
                 WPtr := W, AudioPaused := P } =
      some { SndRate := rate, SndSize := (c : Int), SndData := some (List.replicate c 0),
             RPtr := 0, WPtr := 0, AudioPaused := P } := by
  have hn : toUInt32 (c : Int) = c := toUInt32_natCast c hc
  unfold ResetAudio
  simp only [hn, ResetAudio_clear_eq_replicate c (c : Int) hn buf hl]

theorem ResetAudio_without_buffer (rate size R W P : Int) :
    ResetAudio { SndRate := rate, SndSize := size, SndData := none, RPtr := R,
                 WPtr := W, AudioPaused := P } =
      some { SndRate := rate, SndSize := size, SndData := none,
             RPtr := 0, WPtr := 0, AudioPaused := P } := by
  rfl

theorem free_after_write (c L : Nat) (rate R W P : Int) (d : Option (List sample))
    (hrate : rate ≠ 0) (hR0 : 0 ≤ R) (hR1 : R < (c : Int)) (hW0 : 0 ≤ W) (hW1 : W < (c : Int))
    (hc : c < 2147483648) :
    GetFreeAudio
        { SndRate := rate, SndSize := (c : Int), SndData := d, RPtr := R,
          WPtr := (W + ((min L (if R ≥ W then R - W else R - W + (c : Int)).toNat : Nat) : Int))
            % (c : Int),
          AudioPaused := P } =
      (if R ≥ W then R - W else R - W + (c : Int)).toNat -
        min L (if R ≥ W then R - W else R - W + (c : Int)).toNat := by
  have hw := emod_wrap
    (W + ((min L (if R ≥ W then R - W else R - W + (c : Int)).toNat : Nat) : Int)) (c : Int)
    (by omega) (by split_ifs <;> omega)
  rw [hw]
  rw [GetFreeAudio_eq c rate R _ P d hrate hR0 hR1 (by split_ifs <;> omega)
    (by split_ifs <;> omega) hc]
  split_ifs <;> omega

theorem queued_emod (c : Nat) (R W : Int)
    (hR0 : 0 ≤ R) (hR1 : R < (c : Int)) (hW0 : 0 ≤ W) (hW1 : W < (c : Int)) :
    (W - R) % (c : Int) = if W ≥ R then W - R else W - R + (c : Int) := by
  by_cases h : W ≥ R
  · rw [if_pos h]
    exact Int.emod_eq_of_lt (by omega) (by omega)
  · rw [if_neg h]
    calc (W - R) % (c : Int) = (W - R + (c : Int)) % (c : Int) := Int.add_emod_self.symm
      _ = W - R + (c : Int) := Int.emod_eq_of_lt (by omega) (by omega)

theorem range_slot_ne_written (c : Nat) (R W : Int) (i j : Nat)
    (hR0 : 0 ≤ R) (hR1 : R < (c : Int)) (hW0 : 0 ≤ W) (hW1 : W < (c : Int))
    (hi : (i : Int) < (W - R) % (c : Int))
    (hj : j < (if R ≥ W then R - W else R - W + (c : Int)).toNat) :
    ((R + (i : Int)) % (c : Int)).toNat ≠ ((W + (j : Int)) % (c : Int)).toNat := by
  have hq : (W - R) % (c : Int) = if W ≥ R then W - R else W - R + (c : Int) := by
    by_cases h : W ≥ R
    · rw [if_pos h]
      exact Int.emod_eq_of_lt (by omega) (by omega)
    · rw [if_neg h]
      calc (W - R) % (c : Int) = (W - R + (c : Int)) % (c : Int) := Int.add_emod_self.symm
        _ = W - R + (c : Int) := Int.emod_eq_of_lt (by omega) (by omega)
  rw [hq] at hi
  have h1 := emod_wrap (R + (i : Int)) (c : Int) (by omega) (by split_ifs at hi <;> omega)
  have h2 := emod_wrap (W + (j : Int)) (c : Int) (by omega) (by split_ifs at hj <;> omega)
  rw [h1, h2]
  split_ifs at hi hj ⊢ <;> omega

theorem WriteAudio_loop_keeps_ring (Data : List sample) (Length c : Nat) (rate R P : Int) :
    ∀ (fuel J : Nat) (W : Int) (buf : List sample) (s' : State) (w : Nat),
      buf.length = c → 0 ≤ W → W < (c : Int) →
      WriteAudio.loop Data Length fuel J
          { SndRate := rate, SndSize := (c : Int), SndData := some buf, RPtr := R, WPtr := W,
            AudioPaused := P } = some (s', w) →
      ∃ buf' W', s' = { SndRate := rate, SndSize := (c : Int), SndData := some buf', RPtr := R,
                        WPtr := W', AudioPaused := P } ∧
        buf'.length = c ∧ 0 ≤ W' ∧ W' < (c : Int) := by
  intro fuel
  induction fuel with
  | zero =>
    intro J W buf s' w hl h0 h1 h
    unfold WriteAudio.loop at h
    split at h
    · cases h
    · cases h
      exact ⟨buf, W, rfl, hl, h0, h1⟩
  | succ f ih =>
    intro J W buf s' w hl h0 h1 h
    unfold WriteAudio.loop at h
    split at h
    · obtain ⟨n, hn⟩ : ∃ n : Nat, W = (n : Int) := ⟨W.toNat, by omega⟩
      subst hn
      cases hd : Data[J]? with
      | none =>
        rw [hd] at h
        cases h
      | some d =>
        rw [hd] at h
        simp only [store_eq_some buf n d (by omega)] at h
        exact ih (J + 1) _ (buf.set n d) s' w (by simp [hl]) (by split <;> omega)
          (by split <;> omega) h
    · cases h
      exact ⟨buf, W, rfl, hl, h0, h1⟩

theorem AudioHandler_loop_keeps_ring (Length : Int) (c : Nat) (rate W P : Int)
    (buf : List sample) (hl : buf.length = c) :
    ∀ (fuel : Nat) (J R : Int) (Stream : List sample) (s' : State) (Stream' : List sample),
      0 ≤ R → R < (c : Int) →
      AudioHandler.loop Length fuel J
          { SndRate := rate, SndSize := (c : Int), SndData := some buf, RPtr := R, WPtr := W,
            AudioPaused := P } Stream = some (s', Stream') →
      ∃ R', s' = { SndRate := rate, SndSize := (c : Int), SndData := some buf, RPtr := R',
                   WPtr := W, AudioPaused := P } ∧ 0 ≤ R' ∧ R' < (c : Int) := by
  intro fuel
  induction fuel with
  | zero =>
    intro J R Stream s' Stream' h0 h1 h
    unfold AudioHandler.loop at h
    split at h
    · cases h
    · cases h
      exact ⟨R, rfl, h0, h1⟩
  | succ f ih =>
    intro J R Stream s' Stream' h0 h1 h
    unfold AudioHandler.loop at h
    split at h
    · obtain ⟨r, hr⟩ : ∃ r : Nat, R = (r : Int) := ⟨R.toNat, by omega⟩
      subst hr
      have hrb : r < buf.length := by omega
      have hload : load buf (r : Int) = some buf[r] := by
        rw [load_eq_getElem? buf r hrb, List.getElem?_eq_getElem hrb]
      simp only [hload] at h
      cases hs1 : store Stream J buf[r] with
      | none =>
        rw [hs1] at h
        cases h
      | some S1 =>
        rw [hs1] at h
        cases hs2 : store S1 (J + 1) buf[r] with
        | none =>
          simp only [hs2] at h
          cases h
        | some S2 =>
          simp only [hs2] at h
          exact ih (J + 2) _ S2 s' Stream' (by split <;> omega) (by split <;> omega) h
    · cases h
      exact ⟨R, rfl, h0, h1⟩

theorem ResetAudio_clear_length (SndSize : Int) :
    ∀ (fuel J : Nat) (buf r : List sample),
      ResetAudio.clear SndSize fuel J buf = some r → r.length = buf.length := by
  intro fuel
  induction fuel with
  | zero =>
    intro J buf r h
    unfold ResetAudio.clear at h
    split at h
    · cases h
    · cases h
      rfl
  | succ f ih =>
    intro J buf r h
    unfold ResetAudio.clear at h
    split at h
    · cases hs : store buf (J : Int) 0 with
      | none =>
        rw [hs] at h
        cases h
      | some b1 =>
        rw [hs] at h
        have hb1 : b1.length = buf.length := by
          unfold store at hs
          split at hs
          · cases hs
            simp
          · cases hs
        rw [← hb1]
        exact ih (J + 1) b1 r h
    · cases h
      rfl

theorem WriteAudio_keeps_ring (s s' : State) (Data : List sample) (Length w : Nat)
    (hs : s.RingOk) (h : WriteAudio s Data Length = some (s', w)) : s'.RingOk := by
  unfold WriteAudio at h
  split at h
  · cases h
    exact hs
  · rename_i hrate
    obtain ⟨buf, hb, hlen, hc1, hR0, hR1, hW0, hW1⟩ := hs hrate
    obtain ⟨rate, size, data, R, W, P⟩ := s
    simp only at hrate hb hlen hc1 hR0 hR1 hW0 hW1 h
    subst hb
    subst hlen
    obtain ⟨b', W', hs', hbl, hW0', hW1'⟩ :=
      WriteAudio_loop_keeps_ring Data Length buf.length rate R P Length 0 W buf s' w rfl hW0 hW1 h
    subst hs'
    intro _
    exact ⟨b', rfl, by simp [hbl], hc1, hR0, hR1, hW0', hW1'⟩

theorem AudioHandler_keeps_ring (s s' : State) (Stream Stream' : List sample) (Length : Int)
    (hs : s.RingOk) (h : AudioHandler s Stream Length = some (s', Stream')) : s'.RingOk := by
  unfold AudioHandler at h
  split at h
  · cases h
    exact hs
  · rename_i hrate
    obtain ⟨buf, hb, hlen, hc1, hR0, hR1, hW0, hW1⟩ := hs hrate
    obtain ⟨rate, size, data, R, W, P⟩ := s
    simp only at hrate hb hlen hc1 hR0 hR1 hW0 hW1 h
    subst hb
    subst hlen
    obtain ⟨R', hs', hR0', hR1'⟩ :=
      AudioHandler_loop_keeps_ring _ buf.length rate W P buf rfl _ 0 R Stream s' Stream'
        hR0 hR1 h
    subst hs'
    intro _
    exact ⟨buf, rfl, rfl, hc1, hR0', hR1', hW0, hW1⟩

theorem ResetAudio_keeps_ring (s s' : State) (hs : s.RingOk) (h : ResetAudio s = some s') :
    s'.RingOk := by
  obtain ⟨rate, size, data, R, W, P⟩ := s
  unfold ResetAudio at h
  cases data with
  | none =>
    simp only at h
    cases h
    intro hrate
    obtain ⟨buf, hb, _⟩ := hs hrate
    cases hb
  | some buf =>
    simp only at h
    cases hc : ResetAudio.clear size (toUInt32 size) 0 buf with
    | none =>
      rw [hc] at h
      cases h
    | some b1 =>
      rw [hc] at h
      cases h
      have hb1 := ResetAudio_clear_length size _ 0 buf b1 hc
      intro hrate
      obtain ⟨buf0, hb, hlen, hc1, _, _, _, _⟩ := hs hrate
      cases hb
      simp only at hlen hc1
      have hpos : (0 : Int) < size := by omega
      exact ⟨b1, rfl, by simp only [hb1]; exact hlen, hc1, le_refl _, hpos, le_refl _, hpos⟩

theorem PauseAudio_keeps_ring (s : State) (Switch : Int) (hs : s.RingOk) :
    (PauseAudio s Switch).state.RingOk := by
  obtain ⟨rate, size, data, R, W, P⟩ := s
  unfold PauseAudio
  simp only
  split_ifs <;> exact fun hrate => hs hrate

theorem InitAudio_keeps_ring (env : Env) (s : State) (Rate Latency : Nat) (o : Out Nat)
    (hcap : 1000 ≤ Rate * Latency % 4294967296)
    (h : InitAudio env s Rate Latency = some o) : o.state.RingOk := by
  by_cases hc : Rate < 8000 ∨ Latency = 0
  · rw [InitAudio_reject env s Rate Latency hc] at h
    cases h
    intro hrate
    exact absurd rfl hrate
  · have h1 : 8000 ≤ Rate := by omega
    have h2 : Latency ≠ 0 := by omega
    cases hm : env.mallocOk with
    | false =>
      rw [InitAudio_malloc_fails env s Rate Latency h1 h2 hm] at h
      cases h
      intro hrate
      exact absurd rfl hrate
    | true =>
      cases ho : env.openOk with
      | false =>
        rw [InitAudio_open_fails env s Rate Latency h1 h2 hm ho] at h
        cases h
        intro hrate
        exact absurd rfl hrate
      | true =>
        rw [InitAudio_success env s Rate Latency h1 h2 hm ho] at h
        cases h
        intro _
        refine ⟨_, rfl, by simp, ?_, le_refl _, ?_, le_refl _, ?_⟩ <;>
          simp only <;> omega

theorem Call_run_keeps_ring (s s' : State) (c : Call) (hs : s.RingOk) (hc : c.capacityOk)
    (h : Call.run s c = some s') : s'.RingOk := by
  cases c with
  | InitAudio env Rate Latency =>
    simp only [Call.run] at h
    cases ho : InitAudio env s Rate Latency with
    | none =>
      rw [ho] at h
      cases h
    | some o =>
      rw [ho] at h
      cases h
      exact InitAudio_keeps_ring env s Rate Latency o hc ho
  | TrashAudio =>
    simp only [Call.run] at h
    cases h
    intro hrate
    exact absurd rfl hrate
  | WriteAudio Data Length =>
    simp only [Call.run] at h
    cases hw : WriteAudio s Data Length with
    | none =>
      rw [hw] at h
      cases h
    | some p =>
      rw [hw] at h
      cases h
      exact WriteAudio_keeps_ring s p.1 Data Length p.2 hs hw
  | AudioHandler Stream Length =>
    simp only [Call.run] at h
    cases hw : AudioHandler s Stream Length with
    | none =>
      rw [hw] at h
      cases h
    | some p =>
      rw [hw] at h
      cases h
      exact AudioHandler_keeps_ring s p.1 Stream p.2 Length hs hw
  | PauseAudio Switch =>
    simp only [Call.run] at h
    cases h
    exact PauseAudio_keeps_ring s Switch hs
  | GetFreeAudio =>
    simp only [Call.run] at h
    cases h
    exact hs
  | ResetAudio =>
    simp only [Call.run] at h
    exact ResetAudio_keeps_ring s s' hs h

/-- The ring-buffer invariant along runs: from a state that satisfies it, every sequence of
calls in which each `InitAudio` call computes a capacity of at least 1 leads, whenever all the
calls are defined, to a state that satisfies it again. -/
theorem runAll_keeps_ring (calls : List Call) :
    ∀ (s s' : State), s.RingOk → (∀ c ∈ calls, c.capacityOk) →
      Call.runAll s calls = some s' → s'.RingOk := by
  induction calls with
  | nil =>
    intro s s' hs _ h
    simp only [Call.runAll] at h
    cases h
    exact hs
  | cons c cs ih =>
    intro s s' hs hall h
    simp only [Call.runAll] at h
    cases hr : Call.run s c with
    | none =>
      rw [hr] at h
      cases h
    | some s1 =>
      rw [hr] at h
      exact ih s1 s' (Call_run_keeps_ring s s1 c hs (hall c (List.mem_cons_self _ _)) hr)
        (fun c' hc' => hall c' (List.mem_cons_of_mem _ hc')) h

/-- The ring-buffer invariant in reachable states: every state reached from the initial state
by a sequence of calls in which each `InitAudio` call computes a capacity of at least 1
satisfies the invariant. -/
theorem ring_ok_of_reachable (calls : List Call) (s' : State)
    (hall : ∀ c ∈ calls, c.capacityOk) (h : Call.runAll State.initial calls = some s') :
    s'.RingOk :=
  runAll_keeps_ring calls State.initial s' (fun hrate => absurd rfl hrate) hall h

/-! ## The claims -/

/-- C1, as stated, fails: `InitAudio(2147491648, 1)` succeeds and returns 2147491648, but the
`int` `SndRate` then holds `2147491648 - 2^32 = -2147475648`, not the requested rate. -/
theorem SndRate_wraps_to_negative :
    (InitAudio Env.allOk State.initial 2147491648 1).map
        (fun o => (o.ret, o.state.SndRate)) = some (2147491648, -2147475648) ∧
      (-2147475648 : Int) ≠ ((2147491648 : Nat) : Int) := by
  refine ⟨?_, by decide⟩
  rw [InitAudio_success Env.allOk State.initial 2147491648 1 (by decide) (by decide) rfl rfl]
  simp only [Option.map]
  rw [toUInt32_toInt32 2147491648 (by decide)]
  have e : toInt32 2147491648 = -2147475648 := by decide
  rw [e]

/-- C1, amended: from any prior state `InitAudio` returns; the returned value is `Rate` and
nonzero exactly when `Rate >= 8000`, `Latency != 0`, the allocation succeeds and the device
opens; in that case the resulting statics are `RPtr = WPtr = 0`, `AudioPaused = 0`, a buffer of
`SndSize` slots that are all 0, and `SndRate` equal to `Rate` converted to a 32-bit `int`,
whatever the prior state was: `SndRate` is nonzero, converts back to `Rate`, equals `Rate` when
`Rate < 2^31` and equals `Rate - 2^32` when `Rate >= 2^31`. -/
theorem InitAudio_returns_rate_iff (env : Env) (s : State) (Rate Latency : Nat)
    (hR : Rate < 4294967296) :
    ∃ o, InitAudio env s Rate Latency = some o ∧
      ((o.ret = Rate ∧ o.ret ≠ 0) ↔
        (8000 ≤ Rate ∧ Latency ≠ 0 ∧ env.mallocOk = true ∧ env.openOk = true)) ∧
      ((8000 ≤ Rate ∧ Latency ≠ 0 ∧ env.mallocOk = true ∧ env.openOk = true) →
        o.state =
          { SndRate := toInt32 Rate,
            SndSize := ((Rate * Latency % 4294967296 / 1000 : Nat) : Int),
            SndData := some (List.replicate (Rate * Latency % 4294967296 / 1000) 0),
            RPtr := 0, WPtr := 0, AudioPaused := 0 } ∧
        o.state.SndRate ≠ 0 ∧ toUInt32 o.state.SndRate = Rate ∧
        (Rate < 2147483648 → o.state.SndRate = (Rate : Int)) ∧
        (2147483648 ≤ Rate → o.state.SndRate = (Rate : Int) - 4294967296)) := by
  by_cases h1 : 8000 ≤ Rate
  · by_cases h2 : Latency = 0
    · refine ⟨_, InitAudio_reject env s Rate Latency (Or.inr h2), ?_, ?_⟩
      · simp [h2]
      · intro h
        exact absurd h2 h.2.1
    · cases hm : env.mallocOk with
      | false =>
        refine ⟨_, InitAudio_malloc_fails env s Rate Latency h1 h2 hm, ?_, ?_⟩
        · simp
        · intro h
          exact absurd h.2.2.1 (by decide)
      | true =>
        cases ho : env.openOk with
        | false =>
          refine ⟨_, InitAudio_open_fails env s Rate Latency h1 h2 hm ho, ?_, ?_⟩
          · simp
          · intro h
            exact absurd h.2.2.2 (by decide)
        | true =>
          have e : toUInt32 (toInt32 Rate) = Rate := toUInt32_toInt32 Rate hR
          refine ⟨_, InitAudio_success env s Rate Latency h1 h2 hm ho, ?_, ?_⟩
          · constructor
            · intro _
              exact ⟨h1, h2, rfl, rfl⟩
            · intro _
              refine ⟨e, fun h0 => ?_⟩
              have h0a : toUInt32 (toInt32 Rate) = 0 := h0
              rw [e] at h0a
              omega
          · intro _
            refine ⟨rfl, toInt32_ne_zero Rate (by omega) hR, e, ?_, ?_⟩
            · intro hlt
              exact toInt32_of_lt Rate hlt
            · intro hge
              show toInt32 Rate = (Rate : Int) - 4294967296
              unfold toInt32
              split <;> omega
  · refine ⟨_, InitAudio_reject env s Rate Latency (Or.inl (by omega)), ?_, ?_⟩
    · constructor
      · intro h
        exact absurd rfl h.2
      · intro h
        exact absurd h.1 h1
    · intro h
      exact absurd h.1 h1

/-- Witness for the amended C1 at `InitAudio(44100, 100)` from the initial state. -/
theorem InitAudio_returns_rate_iff_witness :
    (44100 : Nat) < 4294967296 ∧
    ∃ o, InitAudio Env.allOk State.initial 44100 100 = some o ∧
      ((o.ret = 44100 ∧ o.ret ≠ 0) ↔
        (8000 ≤ 44100 ∧ 100 ≠ 0 ∧ Env.allOk.mallocOk = true ∧ Env.allOk.openOk = true)) ∧
      ((8000 ≤ 44100 ∧ 100 ≠ 0 ∧ Env.allOk.mallocOk = true ∧ Env.allOk.openOk = true) →
        o.state =
          { SndRate := toInt32 44100,
            SndSize := ((44100 * 100 % 4294967296 / 1000 : Nat) : Int),
            SndData := some (List.replicate (44100 * 100 % 4294967296 / 1000) 0),
            RPtr := 0, WPtr := 0, AudioPaused := 0 } ∧
        o.state.SndRate ≠ 0 ∧ toUInt32 o.state.SndRate = 44100 ∧
        (44100 < 2147483648 → o.state.SndRate = ((44100 : Nat) : Int)) ∧
        (2147483648 ≤ 44100 → o.state.SndRate = ((44100 : Nat) : Int) - 4294967296)) :=
  ⟨by decide, InitAudio_returns_rate_iff Env.allOk State.initial 44100 100 (by decide)⟩

/-- C2, as stated, fails: `InitAudio(8000, 1)` succeeds with capacity 8, and `GetFreeAudio`
called on the resulting state returns 0, not `capacity - 1 = 7`. -/
theorem fresh_engine_has_no_free_slot :
    (InitAudio Env.allOk State.initial 8000 1).map (fun o => (o.ret, o.state)) =
        some (8000, State.fresh8) ∧
      State.fresh8.SndSize = 8 ∧ GetFreeAudio State.fresh8 = 0 ∧
      (GetFreeAudio State.fresh8 : Int) ≠ State.fresh8.SndSize - 1 :=
  ⟨by decide, by decide, by decide, by decide⟩

/-- C2, amended: for every `Rate >= 8000` and `Latency >= 1` for which `InitAudio` succeeds,
`GetFreeAudio` called immediately afterwards returns 0: both pointers are 0, and equal
pointers count as no free slot. -/
theorem GetFreeAudio_after_InitAudio (env : Env) (s : State) (Rate Latency : Nat)
    (hR : Rate < 4294967296) (h1 : 8000 ≤ Rate) (h2 : 1 ≤ Latency)
    (hm : env.mallocOk = true) (ho : env.openOk = true) :
    ∃ o, InitAudio env s Rate Latency = some o ∧ o.ret = Rate ∧ GetFreeAudio o.state = 0 := by
  refine ⟨_, InitAudio_success env s Rate Latency h1 (by omega) hm ho, ?_, ?_⟩
  · exact toUInt32_toInt32 Rate hR
  · exact GetFreeAudio_of_ptr_eq _ rfl

/-- Witness for the amended C2 at `InitAudio(44100, 100)`. -/
theorem GetFreeAudio_after_InitAudio_witness :
    ((44100 : Nat) < 4294967296 ∧ 8000 ≤ 44100 ∧ 1 ≤ 100 ∧ Env.allOk.mallocOk = true ∧
      Env.allOk.openOk = true) ∧
    ∃ o, InitAudio Env.allOk State.initial 44100 100 = some o ∧ o.ret = 44100 ∧
      GetFreeAudio o.state = 0 :=
  ⟨by decide,
   GetFreeAudio_after_InitAudio Env.allOk State.initial 44100 100 (by decide) (by decide)
     (by decide) rfl rfl⟩

/-- C3: whenever `InitAudio` fails (`Rate < 8000`, `Latency == 0`, allocation failure or
device-open failure) it returns 0 and leaves `SndRate = 0` and `SndData` null, from any prior
state; `GetFreeAudio` then returns 0. -/
theorem InitAudio_failure_silent (env : Env) (s : State) (Rate Latency : Nat)
    (h : Rate < 8000 ∨ Latency = 0 ∨ env.mallocOk = false ∨ env.openOk = false) :
    ∃ o, InitAudio env s Rate Latency = some o ∧ o.ret = 0 ∧ o.state.SndRate = 0 ∧
      o.state.SndData = none ∧ GetFreeAudio o.state = 0 := by
  by_cases hc : Rate < 8000 ∨ Latency = 0
  · exact ⟨_, InitAudio_reject env s Rate Latency hc, rfl, rfl, rfl,
      GetFreeAudio_of_rate_zero _ rfl⟩
  · have h1 : 8000 ≤ Rate := by omega
    have h2 : Latency ≠ 0 := by omega
    cases hm : env.mallocOk with
    | false =>
      exact ⟨_, InitAudio_malloc_fails env s Rate Latency h1 h2 hm, rfl, rfl, rfl,
        GetFreeAudio_of_rate_zero _ rfl⟩
    | true =>
      have ho : env.openOk = false := by
        rcases h with h | h | h | h
        · exact absurd (Or.inl h) hc
        · exact absurd (Or.inr h) hc
        · rw [hm] at h
          exact absurd h (by decide)
        · exact h
      exact ⟨_, InitAudio_open_fails env s Rate Latency h1 h2 hm ho, rfl, rfl, rfl,
        GetFreeAudio_of_rate_zero _ rfl⟩

/-- Witness for C3: a device-open failure at `InitAudio(44100, 100)` on a running engine. -/
theorem InitAudio_failure_silent_witness :
    ((44100 : Nat) < 8000 ∨ (100 : Nat) = 0 ∨ true = false ∨ false = false) ∧
    ∃ o, InitAudio { mallocOk := true, junk := fun _ => 5, openOk := false }
          { SndRate := 8000, SndSize := 8, SndData := some [1, 2, 3, 4, 5, 6, 7, 8], RPtr := 3,
            WPtr := 5, AudioPaused := 1 } 44100 100 = some o ∧
      o.ret = 0 ∧ o.state.SndRate = 0 ∧ o.state.SndData = none ∧ GetFreeAudio o.state = 0 :=
  ⟨Or.inr (Or.inr (Or.inr rfl)),
   InitAudio_failure_silent { mallocOk := true, junk := fun _ => 5, openOk := false }
     { SndRate := 8000, SndSize := 8, SndData := some [1, 2, 3, 4, 5, 6, 7, 8], RPtr := 3,
       WPtr := 5, AudioPaused := 1 } 44100 100 (Or.inr (Or.inr (Or.inr rfl)))⟩

/-- C4 fails on the code: `InitAudio(65536, 65536)` succeeds and stores capacity 0, because
the product wraps to 0 in 32-bit unsigned arithmetic, whereas
`floor(65536 * 65536 / 1000) = 4294967`. -/
theorem InitAudio_capacity_wraps :
    (InitAudio Env.allOk State.initial 65536 65536).map
        (fun o => (o.ret, o.state.SndSize, o.state.SndData)) = some (65536, 0, some []) ∧
      65536 * 65536 / 1000 = 4294967 := by
  decide


/-- C5, as stated, fails: on the engine freshly set up by `InitAudio(8000, 1)` (capacity 8),
`WriteAudio` of the 3 samples 1, 2, 3 copies nothing and returns 0, and an `AudioHandler`
call for 3 stereo frames (12 bytes) outputs six zeros, not 1, 1, 2, 2, 3, 3. -/
theorem round_trip_on_fresh_engine_fails :
    (InitAudio Env.allOk State.initial 8000 1).map (fun o => (o.ret, o.state)) =
        some (8000, State.fresh8) ∧
      WriteAudio State.fresh8 [1, 2, 3] 3 = some (State.fresh8, 0) ∧
      AudioHandler State.fresh8 [9, 9, 9, 9, 9, 9] 12 =
        some ({ State.fresh8 with RPtr := 3 }, [0, 0, 0, 0, 0, 0]) ∧
      ([0, 0, 0, 0, 0, 0] : List sample) ≠ [1, 1, 2, 2, 3, 3] :=
  ⟨by decide, by decide, by decide, by decide⟩

/-- C5, amended: for a state with `SndRate != 0`, a buffer of `c = SndSize` slots and both
pointers in `[0, c)`, let `F = GetFreeAudio()`.  For every `Data` holding at least `N <= F`
samples, `WriteAudio(Data, N)` returns `N`, and a following `AudioHandler` call for
`(c - F) + N` stereo frames outputs first, as its frames `i < c - F`, the slots
`SndData[(RPtr + i) mod c]` that were queued before the write, and then, as its frames
`c - F + j` for `j < N`, the samples `(Data[j], Data[j])`: the written sequence in order,
duplicated per channel. -/
theorem WriteAudio_then_AudioHandler_round_trip (s : State) (buf Data Stream : List sample)
    (N : Nat) (hrate : s.SndRate ≠ 0) (hbuf : s.SndData = some buf)
    (hlen : (buf.length : Int) = s.SndSize) (hsz : s.SndSize < 2147483648)
    (hR0 : 0 ≤ s.RPtr) (hR1 : s.RPtr < s.SndSize) (hW0 : 0 ≤ s.WPtr) (hW1 : s.WPtr < s.SndSize)
    (hN : N ≤ GetFreeAudio s) (hD : N ≤ Data.length)
    (hS : 2 * (buf.length - GetFreeAudio s + N) ≤ Stream.length)
    (h4 : 4 * (buf.length - GetFreeAudio s + N) < 2147483648) :
    ∃ s1 s2 Stream',
      WriteAudio s Data N = some (s1, N) ∧
      AudioHandler s1 Stream ((4 * (buf.length - GetFreeAudio s + N) : Nat) : Int) =
        some (s2, Stream') ∧
      (∀ i : Nat, i < buf.length - GetFreeAudio s → ∃ v,
        buf[((s.RPtr + (i : Int)) % s.SndSize).toNat]? = some v ∧
        Stream'[2 * i]? = some v ∧ Stream'[2 * i + 1]? = some v) ∧
      (∀ j : Nat, j < N → ∃ v, Data[j]? = some v ∧
        Stream'[2 * (buf.length - GetFreeAudio s + j)]? = some v ∧
        Stream'[2 * (buf.length - GetFreeAudio s + j) + 1]? = some v) := by
  obtain ⟨rate, size, data, R, W, P⟩ := s
  simp only at hrate hbuf hlen hsz hR0 hR1 hW0 hW1
  subst hbuf
  subst hlen
  obtain ⟨b', hb', hbl, hcont, hframe⟩ :=
    WriteAudio_spec Data N buf.length rate R W P buf hrate rfl hR0 hR1 hW0 hW1 hD (by omega)
  rw [Nat.min_eq_left hN] at hb' hcont hframe
  have hF := GetFreeAudio_eq buf.length rate R W P (some buf) hrate hR0 hR1 hW0 hW1 (by omega)
  generalize GetFreeAudio
    { SndRate := rate, SndSize := (buf.length : Int), SndData := some buf, RPtr := R, WPtr := W,
      AudioPaused := P } = F at hN hS h4 hF hb' ⊢
  obtain ⟨S', hS', -, -, hout⟩ :=
    AudioHandler_spec b' buf.length (buf.length - F + N) hbl rate R
      ((W + (N : Int)) % (buf.length : Int)) P Stream hrate hR0 hR1 hS h4
  have hFc : F ≤ buf.length := by
    rw [hF]
    split_ifs <;> omega
  have hpos : (0 : Int) < (buf.length : Int) := by omega
  refine ⟨_, _, S', hb', hS', ?_, ?_⟩
  · intro i hi
    obtain ⟨ha, hb⟩ := hout i (by omega)
    have a := Int.emod_nonneg (R + (i : Int)) (ne_of_gt hpos)
    have b := Int.emod_lt_of_pos (R + (i : Int)) hpos
    have hslot : ((R + (i : Int)) % (buf.length : Int)).toNat < buf.length := by omega
    have hkeep : b'[((R + (i : Int)) % (buf.length : Int)).toNat]? =
        buf[((R + (i : Int)) % (buf.length : Int)).toNat]? := by
      apply hframe
      intro j hj
      refine range_slot_ne_written buf.length R W i j hR0 hR1 hW0 hW1 ?_ (by omega)
      rw [queued_emod buf.length R W hR0 hR1 hW0 hW1]
      rw [hF] at hi hN
      split_ifs at hi hN ⊢ <;> omega
    rw [hkeep] at ha hb
    refine ⟨buf[((R + (i : Int)) % (buf.length : Int)).toNat], ?_, ?_, ?_⟩
    · exact List.getElem?_eq_getElem hslot
    · rw [ha]
      exact List.getElem?_eq_getElem hslot
    · rw [hb]
      exact List.getElem?_eq_getElem hslot
  · intro j hj
    obtain ⟨ha, hb⟩ := hout (buf.length - F + j) (by omega)
    have hslot : (R + ((buf.length - F + j : Nat) : Int)) % (buf.length : Int) =
        (W + (j : Int)) % (buf.length : Int) := by
      have e : R + ((buf.length - F + j : Nat) : Int) =
          W + (j : Int) + (if R ≥ W then (buf.length : Int) else 0) := by
        rw [hF] at hFc ⊢
        split_ifs at hFc ⊢ <;> omega
      rw [e]
      split_ifs
      · exact Int.add_emod_self
      · rw [add_zero]
    rw [hslot, hcont j hj] at ha hb
    have hjD : j < Data.length := by omega
    refine ⟨Data[j], List.getElem?_eq_getElem hjD, ?_, ?_⟩
    · rw [ha]
      exact List.getElem?_eq_getElem hjD
    · rw [hb]
      exact List.getElem?_eq_getElem hjD

/-- Witness for the amended C5: eight cleared slots, `RPtr = 3`, `WPtr = 0` (three free, five
queued); the samples 1, 2, 3 are written and eight frames are read. -/
theorem WriteAudio_then_AudioHandler_round_trip_witness :
    ∃ s1 s2 Stream',
      WriteAudio { State.fresh8 with RPtr := 3 } [1, 2, 3] 3 = some (s1, 3) ∧
      AudioHandler s1 [9, 9, 9, 9, 9, 9, 9, 9, 9, 9, 9, 9, 9, 9, 9, 9]
          ((4 * ([0, 0, 0, 0, 0, 0, 0, (0 : sample)].length -
            GetFreeAudio { State.fresh8 with RPtr := 3 } + 3) : Nat) : Int) =
        some (s2, Stream') ∧
      (∀ i : Nat, i < [0, 0, 0, 0, 0, 0, 0, (0 : sample)].length -
          GetFreeAudio { State.fresh8 with RPtr := 3 } → ∃ v,
        [0, 0, 0, 0, 0, 0, 0, (0 : sample)][(((3 : Int) + (i : Int)) % 8).toNat]? = some v ∧
        Stream'[2 * i]? = some v ∧ Stream'[2 * i + 1]? = some v) ∧
      (∀ j : Nat, j < 3 → ∃ v, [1, 2, (3 : sample)][j]? = some v ∧
        Stream'[2 * ([0, 0, 0, 0, 0, 0, 0, (0 : sample)].length -
          GetFreeAudio { State.fresh8 with RPtr := 3 } + j)]? = some v ∧
        Stream'[2 * ([0, 0, 0, 0, 0, 0, 0, (0 : sample)].length -
          GetFreeAudio { State.fresh8 with RPtr := 3 } + j) + 1]? = some v) :=
  WriteAudio_then_AudioHandler_round_trip { State.fresh8 with RPtr := 3 }
    [0, 0, 0, 0, 0, 0, 0, 0] [1, 2, 3] [9, 9, 9, 9, 9, 9, 9, 9, 9, 9, 9, 9, 9, 9, 9, 9] 3
    (by decide) rfl (by decide) (by decide) (by decide) (by decide) (by decide) (by decide)
    (by decide) (by decide) (by decide) (by decide)

/-- C6, as stated, fails: after `InitAudio(44100, 100)` (capacity 4410), `WriteAudio` of the
3 samples 1, 2, 3 returns 0, not 3, and `GetFreeAudio` then returns 0, not 4406. -/
theorem scenario_WriteAudio_returns_zero :
    (InitAudio Env.allOk State.initial 44100 100).bind (fun o =>
      (WriteAudio o.state [1, 2, 3] 3).map (fun p =>
        (o.ret, o.state.SndSize, p.2, GetFreeAudio p.1))) = some (44100, 4410, 0, 0) ∧
      (0 : Nat) ≠ 3 ∧ (0 : Nat) ≠ 4406 := by
  refine ⟨?_, by decide, by decide⟩
  rw [InitAudio_success Env.allOk State.initial 44100 100 (by decide) (by decide) rfl rfl]
  simp only [Option.bind]
  rw [WriteAudio_of_ptr_eq _ _ _ rfl]
  simp only [Option.map]
  rw [GetFreeAudio_of_ptr_eq _ rfl]
  rfl

/-- C6, amended: on an engine freshly set up by a successful `InitAudio`, `WriteAudio` of any
`N` samples returns 0 and `GetFreeAudio` afterwards returns 0; so after
`InitAudio(44100, 100)`, `WriteAudio` of 3 samples returns 0 and `GetFreeAudio` returns 0. -/
theorem WriteAudio_after_InitAudio (env : Env) (s : State) (Rate Latency : Nat)
    (Data : List sample) (N : Nat)
    (hR : Rate < 4294967296) (h1 : 8000 ≤ Rate) (h2 : 1 ≤ Latency)
    (hm : env.mallocOk = true) (ho : env.openOk = true) :
    ∃ o, InitAudio env s Rate Latency = some o ∧ o.ret = Rate ∧
      ∃ st, WriteAudio o.state Data N = some (st, 0) ∧ GetFreeAudio st = 0 := by
  refine ⟨_, InitAudio_success env s Rate Latency h1 (by omega) hm ho,
    toUInt32_toInt32 Rate hR, _, WriteAudio_of_ptr_eq _ _ _ rfl, ?_⟩
  exact GetFreeAudio_of_ptr_eq _ rfl

/-- Witness for the amended C6 at `InitAudio(44100, 100)` and the samples 1, 2, 3. -/
theorem WriteAudio_after_InitAudio_witness :
    ((44100 : Nat) < 4294967296 ∧ 8000 ≤ 44100 ∧ 1 ≤ 100 ∧ Env.allOk.mallocOk = true ∧
      Env.allOk.openOk = true) ∧
    ∃ o, InitAudio Env.allOk State.initial 44100 100 = some o ∧ o.ret = 44100 ∧
      ∃ st, WriteAudio o.state [1, 2, 3] 3 = some (st, 0) ∧ GetFreeAudio st = 0 :=
  ⟨by decide,
   WriteAudio_after_InitAudio Env.allOk State.initial 44100 100 [1, 2, 3] 3 (by decide)
     (by decide) (by decide) rfl rfl⟩


/-- C7, as stated, fails: from `InitAudio(8000, 1)` followed by an `AudioHandler` call for 3
frames the pointers are `RPtr = 3`, `WPtr = 0` (neither equal nor adjacent); `WriteAudio` of
5 samples then copies 3 of them and stops with `WPtr = RPtr = 3`. -/
theorem WriteAudio_reaches_RPtr :
    (InitAudio Env.allOk State.initial 8000 1).map (fun o => o.state) = some State.fresh8 ∧
      AudioHandler State.fresh8 [0, 0, 0, 0, 0, 0] 12 =
        some ({ State.fresh8 with RPtr := 3 }, [0, 0, 0, 0, 0, 0]) ∧
      WriteAudio { State.fresh8 with RPtr := 3 } [1, 2, 3, 4, 5] 5 =
        some ({ State.fresh8 with
                RPtr := 3, WPtr := 3, SndData := some [1, 2, 3, 0, 0, 0, 0, 0] }, 3) ∧
      ((0 : Int) + 1) % 8 ≠ 3 ∧ (0 : Int) ≠ 3 :=
  ⟨by decide, by decide, by decide, by decide, by decide⟩

/-- C7, amended: for every state with `SndRate != 0`, a buffer of `SndSize` slots and both
pointers in `[0, SndSize)`, and every input of at least `Length` samples, `WriteAudio` copies
exactly `min(Length, GetFreeAudio())` samples, leaves `RPtr` alone and advances `WPtr` by that
count modulo `SndSize`; it stops when `WPtr` reaches `RPtr`, so afterwards `WPtr = RPtr` holds
exactly when `Length >= GetFreeAudio()`, whatever the distance between the pointers was. -/
theorem WriteAudio_stops_at_RPtr (s : State) (buf Data : List sample) (Length : Nat)
    (hrate : s.SndRate ≠ 0) (hbuf : s.SndData = some buf)
    (hlen : (buf.length : Int) = s.SndSize) (hsz : s.SndSize < 2147483648)
    (hR0 : 0 ≤ s.RPtr) (hR1 : s.RPtr < s.SndSize) (hW0 : 0 ≤ s.WPtr) (hW1 : s.WPtr < s.SndSize)
    (hD : Length ≤ Data.length) :
    ∃ s', WriteAudio s Data Length = some (s', min Length (GetFreeAudio s)) ∧
      s'.RPtr = s.RPtr ∧
      s'.WPtr = (s.WPtr + ((min Length (GetFreeAudio s) : Nat) : Int)) % s.SndSize ∧
      (s'.WPtr = s'.RPtr ↔ GetFreeAudio s ≤ Length) := by
  obtain ⟨rate, size, data, R, W, P⟩ := s
  simp only at hrate hbuf hlen hsz hR0 hR1 hW0 hW1
  subst hbuf
  subst hlen
  obtain ⟨b', hb', -, -, -⟩ :=
    WriteAudio_spec Data Length buf.length rate R W P buf hrate rfl hR0 hR1 hW0 hW1 hD
      (by omega)
  refine ⟨_, hb', rfl, rfl, ?_⟩
  simp only
  rw [GetFreeAudio_eq buf.length rate R W P (some buf) hrate hR0 hR1 hW0 hW1 (by omega)]
  exact write_ptr_meets_iff buf.length Length R W hR0 hR1 hW0 hW1

/-- Witness for the amended C7: eight slots, `RPtr = 3`, `WPtr = 0`, five samples offered. -/
theorem WriteAudio_stops_at_RPtr_witness :
    ∃ s', WriteAudio { State.fresh8 with RPtr := 3 } [1, 2, 3, 4, 5] 5 =
        some (s', min 5 (GetFreeAudio { State.fresh8 with RPtr := 3 })) ∧
      s'.RPtr = 3 ∧
      s'.WPtr = ((0 : Int) + ((min 5 (GetFreeAudio { State.fresh8 with RPtr := 3 }) : Nat) : Int))
        % 8 ∧
      (s'.WPtr = s'.RPtr ↔ GetFreeAudio { State.fresh8 with RPtr := 3 } ≤ 5) :=
  WriteAudio_stops_at_RPtr { State.fresh8 with RPtr := 3 } [0, 0, 0, 0, 0, 0, 0, 0]
    [1, 2, 3, 4, 5] 5 (by decide) rfl (by decide) (by decide) (by decide) (by decide)
    (by decide) (by decide) (by decide)

/-- C8: with `SndRate == 0`, `WriteAudio` returns 0 for every `Data` and `Length` and leaves
all the statics (buffer, `RPtr`, `WPtr`, `SndSize`, `AudioPaused`) unchanged. -/
theorem WriteAudio_rate_zero (s : State) (Data : List sample) (Length : Nat)
    (h : s.SndRate = 0) : WriteAudio s Data Length = some (s, 0) := by
  unfold WriteAudio
  rw [if_pos h]

/-- Witness for C8: a shut-down engine with no buffer. -/
theorem WriteAudio_rate_zero_witness :
    State.initial.SndRate = 0 ∧
    WriteAudio State.initial [1, 2, 3] 3 = some (State.initial, 0) :=
  ⟨rfl, WriteAudio_rate_zero State.initial [1, 2, 3] 3 rfl⟩

/-- C9: with `SndRate == 0`, `AudioHandler` returns for every `Length`, leaves `RPtr` and `WPtr`
(and every other static) unchanged, and leaves the output region as it was; it does so even
when `SndData` is null or the pointers are out of range, so no buffer slot is read. -/
theorem AudioHandler_rate_zero (s : State) (Stream : List sample) (Length : Int)
    (h : s.SndRate = 0) : AudioHandler s Stream Length = some (s, Stream) := by
  unfold AudioHandler
  rw [if_pos h]

/-- Witness for C9: null buffer, stale pointers, a request of 8 bytes. -/
theorem AudioHandler_rate_zero_witness :
    ({ SndRate := 0, SndSize := 0, SndData := none, RPtr := 5, WPtr := 7,
       AudioPaused := 0 } : State).SndRate = 0 ∧
    AudioHandler { SndRate := 0, SndSize := 0, SndData := none, RPtr := 5, WPtr := 7,
                   AudioPaused := 0 } [9, 9, 9, 9] 8 =
      some ({ SndRate := 0, SndSize := 0, SndData := none, RPtr := 5, WPtr := 7,
              AudioPaused := 0 }, [9, 9, 9, 9]) :=
  ⟨rfl, AudioHandler_rate_zero _ [9, 9, 9, 9] 8 rfl⟩

/-- C10: for every state with `SndRate != 0`, a buffer of `SndSize` slots and `RPtr` in
`[0, SndSize)` (hence `SndSize >= 1`), an `AudioHandler` call for `n` stereo frames (`4 * n`
bytes, into a region of at least `2 * n` samples) returns; output frame `k < n` has left and
right both equal to `SndData[(RPtr + k) mod SndSize]`, the rest of the region is untouched,
`RPtr` ends at `(RPtr + n) mod SndSize`, and the buffer, `WPtr`, `SndRate`, `SndSize` and
`AudioPaused` are unchanged. -/
theorem AudioHandler_frames (s : State) (buf Stream : List sample) (n : Nat)
    (hrate : s.SndRate ≠ 0) (hbuf : s.SndData = some buf)
    (hlen : (buf.length : Int) = s.SndSize)
    (hR0 : 0 ≤ s.RPtr) (hR1 : s.RPtr < s.SndSize)
    (hS : 2 * n ≤ Stream.length) (hn : 4 * n < 2147483648) :
    ∃ Stream',
      AudioHandler s Stream ((4 * n : Nat) : Int) =
        some ({ s with RPtr := (s.RPtr + (n : Int)) % s.SndSize }, Stream') ∧
      Stream'.length = Stream.length ∧
      (∀ k, k < n → ∃ v, buf[((s.RPtr + (k : Int)) % s.SndSize).toNat]? = some v ∧
        Stream'[2 * k]? = some v ∧ Stream'[2 * k + 1]? = some v) ∧
      (∀ i, 2 * n ≤ i → Stream'[i]? = Stream[i]?) := by
  obtain ⟨rate, size, data, R, W, P⟩ := s
  simp only at hrate hbuf hlen hR0 hR1
  subst hbuf
  subst hlen
  obtain ⟨S', hS', hl, hframe, hout⟩ :=
    AudioHandler_spec buf buf.length n rfl rate R W P Stream hrate hR0 hR1 hS hn
  refine ⟨S', hS', hl, ?_, hframe⟩
  intro k hk
  have hpos : (0 : Int) < (buf.length : Int) := by omega
  have a := Int.emod_nonneg (R + (k : Int)) (ne_of_gt hpos)
  have b := Int.emod_lt_of_pos (R + (k : Int)) hpos
  have hslot : ((R + (k : Int)) % (buf.length : Int)).toNat < buf.length := by omega
  obtain ⟨h1, h2⟩ := hout k hk
  refine ⟨buf[((R + (k : Int)) % (buf.length : Int)).toNat], ?_, ?_, ?_⟩
  · exact List.getElem?_eq_getElem hslot
  · rw [h1]
    exact List.getElem?_eq_getElem hslot
  · rw [h2]
    exact List.getElem?_eq_getElem hslot

/-- Witness for C10: four slots 10, 20, 30, 40 read from `RPtr = 2` for three frames. -/
theorem AudioHandler_frames_witness :
    ∃ Stream',
      AudioHandler { SndRate := 8000, SndSize := 4, SndData := some [10, 20, 30, 40],
                     RPtr := 2, WPtr := 1, AudioPaused := 0 } [9, 9, 9, 9, 9, 9, 9]
          ((4 * 3 : Nat) : Int) =
        some ({ SndRate := 8000, SndSize := 4, SndData := some [10, 20, 30, 40],
                RPtr := ((2 : Int) + ((3 : Nat) : Int)) % 4, WPtr := 1, AudioPaused := 0 },
              Stream') ∧
      Stream'.length = [9, 9, 9, 9, 9, 9, (9 : sample)].length ∧
      (∀ k : Nat, k < 3 → ∃ v,
        [10, 20, 30, (40 : sample)][(((2 : Int) + (k : Int)) % 4).toNat]? = some v ∧
        Stream'[2 * k]? = some v ∧ Stream'[2 * k + 1]? = some v) ∧
      (∀ i : Nat, 2 * 3 ≤ i → Stream'[i]? = [9, 9, 9, 9, 9, 9, (9 : sample)][i]?) :=
  AudioHandler_frames { SndRate := 8000, SndSize := 4, SndData := some [10, 20, 30, 40],
                        RPtr := 2, WPtr := 1, AudioPaused := 0 } [10, 20, 30, 40]
    [9, 9, 9, 9, 9, 9, 9] 3 (by decide) rfl (by decide) (by decide) (by decide) (by decide)
    (by decide)

/-- C11, as stated, fails: `InitAudio(8000, 1)`, a 3-frame `AudioHandler` call, `WriteAudio`
of the samples 1, 2, 3 (all three copied) and a 5-frame `AudioHandler` call lead to an engine
whose three fresh samples are unread and next to be read; an `AudioHandler` call for 5 frames
then outputs (1,1), (2,2), (3,3), (0,0), (0,0): the two extra frames are zero, not (3,3). -/
theorem underrun_outputs_stale_slots :
    (InitAudio Env.allOk State.initial 8000 1).map (fun o => o.state) = some State.fresh8 ∧
      AudioHandler State.fresh8 [0, 0, 0, 0, 0, 0] 12 =
        some ({ State.fresh8 with RPtr := 3 }, [0, 0, 0, 0, 0, 0]) ∧
      WriteAudio { State.fresh8 with RPtr := 3 } [1, 2, 3] 3 =
        some ({ State.loaded8 with RPtr := 3 }, 3) ∧
      AudioHandler { State.loaded8 with RPtr := 3 } [9, 9, 9, 9, 9, 9, 9, 9, 9, 9] 20 =
        some (State.loaded8, [0, 0, 0, 0, 0, 0, 0, 0, 0, 0]) ∧
      AudioHandler State.loaded8 [9, 9, 9, 9, 9, 9, 9, 9, 9, 9] 20 =
        some ({ State.loaded8 with RPtr := 5 }, [1, 1, 2, 2, 3, 3, 0, 0, 0, 0]) ∧
      ([1, 1, 2, 2, 3, 3, 0, 0, 0, 0] : List sample) ≠ [1, 1, 2, 2, 3, 3, 3, 3, 3, 3] :=
  ⟨by decide, by decide, by decide, by decide, by decide, by decide⟩

/-- C11, amended: for an initialized engine (`SndRate != 0`, a buffer of `SndSize` slots,
`RPtr` in range) whose slots `(RPtr + j) mod SndSize`, `j < k`, hold `k` fresh unread
samples, an `AudioHandler` call for `n > k` stereo frames returns with `RPtr` moved to
`(RPtr + n) mod SndSize`; it outputs those samples, each on both channels, as frames
`0 .. k-1`, and every extra frame `j` (`k <= j < n`) has both channels equal to the next ring
slot `SndData[(RPtr + j) mod SndSize]`. -/
theorem AudioHandler_underrun (s : State) (buf Stream fresh : List sample) (n : Nat)
    (hrate : s.SndRate ≠ 0) (hbuf : s.SndData = some buf)
    (hlen : (buf.length : Int) = s.SndSize)
    (hR0 : 0 ≤ s.RPtr) (hR1 : s.RPtr < s.SndSize)
    (hkn : fresh.length < n)
    (hfresh : ∀ j : Nat, j < fresh.length →
      buf[((s.RPtr + (j : Int)) % s.SndSize).toNat]? = fresh[j]?)
    (hS : 2 * n ≤ Stream.length) (hn : 4 * n < 2147483648) :
    ∃ Stream',
      AudioHandler s Stream ((4 * n : Nat) : Int) =
        some ({ s with RPtr := (s.RPtr + (n : Int)) % s.SndSize }, Stream') ∧
      (∀ j : Nat, j < fresh.length →
        Stream'[2 * j]? = fresh[j]? ∧ Stream'[2 * j + 1]? = fresh[j]?) ∧
      (∀ j : Nat, fresh.length ≤ j → j < n → ∃ v,
        buf[((s.RPtr + (j : Int)) % s.SndSize).toNat]? = some v ∧
        Stream'[2 * j]? = some v ∧ Stream'[2 * j + 1]? = some v) := by
  obtain ⟨rate, size, data, R, W, P⟩ := s
  simp only at hrate hbuf hlen hR0 hR1 hfresh
  subst hbuf
  subst hlen
  obtain ⟨S', hS', -, -, hout⟩ :=
    AudioHandler_spec buf buf.length n rfl rate R W P Stream hrate hR0 hR1 hS hn
  refine ⟨S', hS', ?_, ?_⟩
  · intro j hj
    obtain ⟨h1, h2⟩ := hout j (by omega)
    rw [hfresh j hj] at h1 h2
    exact ⟨h1, h2⟩
  · intro j _ hjn
    have hpos : (0 : Int) < (buf.length : Int) := by omega
    have a := Int.emod_nonneg (R + (j : Int)) (ne_of_gt hpos)
    have b := Int.emod_lt_of_pos (R + (j : Int)) hpos
    have hslot : ((R + (j : Int)) % (buf.length : Int)).toNat < buf.length := by omega
    obtain ⟨h1, h2⟩ := hout j hjn
    refine ⟨buf[((R + (j : Int)) % (buf.length : Int)).toNat], ?_, ?_, ?_⟩
    · exact List.getElem?_eq_getElem hslot
    · rw [h1]
      exact List.getElem?_eq_getElem hslot
    · rw [h2]
      exact List.getElem?_eq_getElem hslot

/-- Witness for the amended C11: the engine holding 1, 2, 3 unread, asked for 5 frames. -/
theorem AudioHandler_underrun_witness :
    ∃ Stream',
      AudioHandler State.loaded8 [9, 9, 9, 9, 9, 9, 9, 9, 9, 9] ((4 * 5 : Nat) : Int) =
        some ({ State.loaded8 with RPtr := ((0 : Int) + ((5 : Nat) : Int)) % 8 }, Stream') ∧
      (∀ j : Nat, j < [1, 2, (3 : sample)].length →
        Stream'[2 * j]? = [1, 2, (3 : sample)][j]? ∧
        Stream'[2 * j + 1]? = [1, 2, (3 : sample)][j]?) ∧
      (∀ j : Nat, [1, 2, (3 : sample)].length ≤ j → j < 5 → ∃ v,
        [1, 2, 3, 0, 0, 0, 0, (0 : sample)][(((0 : Int) + (j : Int)) % 8).toNat]? = some v ∧
        Stream'[2 * j]? = some v ∧ Stream'[2 * j + 1]? = some v) :=
  AudioHandler_underrun State.loaded8 [1, 2, 3, 0, 0, 0, 0, 0] [9, 9, 9, 9, 9, 9, 9, 9, 9, 9]
    [1, 2, 3] 5 (by decide) rfl (by decide) (by decide) (by decide) (by decide)
    (by
      intro j hj
      have hj3 : j < 3 := hj
      interval_cases j <;> rfl)
    (by decide) (by decide)


/-- C12: for every state whose buffer, if there is one, has `SndSize` slots, `ResetAudio`
returns with `RPtr = WPtr = 0` and every slot of the buffer set to 0, and leaves `SndRate`,
`SndSize` and `AudioPaused` unchanged (a null `SndData` stays null). -/
theorem ResetAudio_clears (s : State)
    (hwf : ∀ buf, s.SndData = some buf → (buf.length : Int) = s.SndSize)
    (hsz : s.SndSize < 2147483648) :
    ResetAudio s =
      some { s with RPtr := 0, WPtr := 0,
                    SndData := s.SndData.map (fun buf => List.replicate buf.length 0) } := by
  obtain ⟨rate, size, data, R, W, P⟩ := s
  simp only at hwf hsz
  cases data with
  | none => exact ResetAudio_without_buffer rate size R W P
  | some buf =>
    have h := hwf buf rfl
    subst h
    exact ResetAudio_with_buffer buf.length rate R W P buf rfl (by omega)

/-- Witness for C12: eight slots holding 1, 2, 3 and zeros, `RPtr = 3`, `WPtr = 1`, paused. -/
theorem ResetAudio_clears_witness :
    ResetAudio { SndRate := 8000, SndSize := 8, SndData := some [1, 2, 3, 0, 0, 0, 0, 0],
                 RPtr := 3, WPtr := 1, AudioPaused := 1 } =
      some { SndRate := 8000, SndSize := 8, SndData := some [0, 0, 0, 0, 0, 0, 0, 0],
             RPtr := 0, WPtr := 0, AudioPaused := 1 } :=
  ResetAudio_clears { SndRate := 8000, SndSize := 8, SndData := some [1, 2, 3, 0, 0, 0, 0, 0],
                      RPtr := 3, WPtr := 1, AudioPaused := 1 }
    (by intro buf h; cases h; rfl) (by decide)

/-- C13, as stated, fails: on an eight-slot engine with `SndRate = 8000`, `ResetAudio` leaves
`RPtr = WPtr = 0` and `GetFreeAudio` then returns 0, not `capacity - 1 = 7`. -/
theorem GetFreeAudio_is_zero_after_reset :
    ResetAudio { SndRate := 8000, SndSize := 8, SndData := some [1, 2, 3, 0, 0, 0, 0, 0],
                 RPtr := 3, WPtr := 1, AudioPaused := 0 } = some State.fresh8 ∧
      GetFreeAudio State.fresh8 = 0 ∧
      (GetFreeAudio State.fresh8 : Int) ≠ State.fresh8.SndSize - 1 :=
  ⟨by decide, by decide, by decide⟩

/-- C13, amended: for every initialized state (`SndRate != 0`, a buffer of `SndSize` slots),
`GetFreeAudio` called immediately after `ResetAudio` returns 0: both pointers are 0, and
equal pointers count as no free slot; `SndRate` is unchanged. -/
theorem GetFreeAudio_after_ResetAudio (s : State) (buf : List sample)
    (hrate : s.SndRate ≠ 0) (hbuf : s.SndData = some buf)
    (hlen : (buf.length : Int) = s.SndSize) (hsz : s.SndSize < 2147483648) :
    ∃ s', ResetAudio s = some s' ∧ s'.SndRate = s.SndRate ∧ s'.SndRate ≠ 0 ∧
      GetFreeAudio s' = 0 := by
  obtain ⟨rate, size, data, R, W, P⟩ := s
  simp only at hrate hbuf hlen hsz
  subst hbuf
  subst hlen
  exact ⟨_, ResetAudio_with_buffer buf.length rate R W P buf rfl (by omega), rfl, hrate,
    GetFreeAudio_of_ptr_eq _ rfl⟩

/-- Witness for the amended C13: the eight-slot engine of the counterexample. -/
theorem GetFreeAudio_after_ResetAudio_witness :
    ∃ s', ResetAudio { SndRate := 8000, SndSize := 8, SndData := some [1, 2, 3, 0, 0, 0, 0, 0],
                       RPtr := 3, WPtr := 1, AudioPaused := 0 } = some s' ∧
      s'.SndRate = 8000 ∧ s'.SndRate ≠ 0 ∧ GetFreeAudio s' = 0 :=
  GetFreeAudio_after_ResetAudio
    { SndRate := 8000, SndSize := 8, SndData := some [1, 2, 3, 0, 0, 0, 0, 0],
      RPtr := 3, WPtr := 1, AudioPaused := 0 } [1, 2, 3, 0, 0, 0, 0, 0]
    (by decide) rfl (by decide) (by decide)

/-- C14: when `AudioPaused` is 0 or 1, `PauseAudio(2)` returns the negated flag
`1 - AudioPaused`, and a second `PauseAudio(2)` returns the original flag and leaves the
statics exactly as they were before the first call. -/
theorem PauseAudio_toggle_twice (s : State) (h : s.AudioPaused = 0 ∨ s.AudioPaused = 1) :
    (PauseAudio s 2).ret = 1 - s.AudioPaused ∧
      (PauseAudio s 2).state.AudioPaused = 1 - s.AudioPaused ∧
      (PauseAudio (PauseAudio s 2).state 2).ret = s.AudioPaused ∧
      (PauseAudio (PauseAudio s 2).state 2).state = s := by
  obtain ⟨rate, size, data, R, W, P⟩ := s
  simp only at h
  rcases h with h | h <;> subst h <;> exact ⟨rfl, rfl, rfl, rfl⟩

/-- Witness for C14: a running, unpaused engine. -/
theorem PauseAudio_toggle_twice_witness :
    (State.fresh8.AudioPaused = 0 ∨ State.fresh8.AudioPaused = 1) ∧
    (PauseAudio State.fresh8 2).ret = 1 - State.fresh8.AudioPaused ∧
      (PauseAudio State.fresh8 2).state.AudioPaused = 1 - State.fresh8.AudioPaused ∧
      (PauseAudio (PauseAudio State.fresh8 2).state 2).ret = State.fresh8.AudioPaused ∧
      (PauseAudio (PauseAudio State.fresh8 2).state 2).state = State.fresh8 :=
  ⟨Or.inl rfl, PauseAudio_toggle_twice State.fresh8 (Or.inl rfl)⟩

/-- C15: for a mode `m` that is 0 (resume) or 1 (pause), `PauseAudio(m)` returns `m` and
leaves `AudioPaused = m` with everything else unchanged; it calls `SDL_PauseAudio(m)` exactly
when `m` differs from the prior `AudioPaused`, and otherwise makes no call; a second
`PauseAudio(m)` returns `m` again, makes no call and changes nothing.  For a mode other than
0, 1 and 2, `PauseAudio` changes nothing, makes no call and returns the current
`AudioPaused`. -/
theorem PauseAudio_force (s : State) (m : Int) :
    ((m = 0 ∨ m = 1) →
      (PauseAudio s m).ret = m ∧
      (PauseAudio s m).state = { s with AudioPaused := m } ∧
      (PauseAudio s m).calls =
        (if m = s.AudioPaused then [] else [SDLCall.PauseAudio m]) ∧
      PauseAudio (PauseAudio s m).state m =
        { ret := m, state := (PauseAudio s m).state, calls := [] }) ∧
    ((m ≠ 0 ∧ m ≠ 1 ∧ m ≠ 2) →
      PauseAudio s m = { ret := s.AudioPaused, state := s, calls := [] }) := by
  obtain ⟨rate, size, data, R, W, P⟩ := s
  constructor
  · intro hm
    have h2 : m ≠ 2 := by omega
    have hr : 0 ≤ m ∧ m ≤ 1 := by omega
    by_cases hP : m = P
    · subst hP
      simp [PauseAudio, h2]
    · simp [PauseAudio, h2, hr, hP]
  · intro hm
    have h2 : m ≠ 2 := hm.2.2
    have hr : ¬ (0 ≤ m ∧ m ≤ 1 ∧ m ≠ P) := by omega
    simp only [PauseAudio, h2, if_false, hr]

/-- Witness for C15: force-pause on an unpaused engine, and mode 7. -/
theorem PauseAudio_force_witness :
    (((1 : Int) = 0 ∨ (1 : Int) = 1) ∧
      (PauseAudio State.fresh8 1).ret = 1 ∧
      (PauseAudio State.fresh8 1).state = { State.fresh8 with AudioPaused := 1 } ∧
      (PauseAudio State.fresh8 1).calls =
        (if (1 : Int) = State.fresh8.AudioPaused then [] else [SDLCall.PauseAudio 1]) ∧
      PauseAudio (PauseAudio State.fresh8 1).state 1 =
        { ret := 1, state := (PauseAudio State.fresh8 1).state, calls := [] }) ∧
    (((7 : Int) ≠ 0 ∧ (7 : Int) ≠ 1 ∧ (7 : Int) ≠ 2) ∧
      PauseAudio State.fresh8 7 =
        { ret := State.fresh8.AudioPaused, state := State.fresh8, calls := [] }) :=
  ⟨⟨Or.inr rfl, (PauseAudio_force State.fresh8 1).1 (Or.inr rfl)⟩,
   ⟨by decide, (PauseAudio_force State.fresh8 7).2 (by decide)⟩⟩

/-- C16, as stated, fails: `InitAudio(8000, 1)` with `malloc` failing returns 0 and leaves an
uninitialized engine (`SndRate = 0`, null `SndData`) whose `SndSize` is still 8; `TrashAudio`
changes that state, since it zeroes `SndSize`. -/
theorem TrashAudio_changes_uninitialized_state :
    (InitAudio { mallocOk := false, junk := fun _ => 0, openOk := true } State.initial 8000
        1).map (fun o => (o.ret, o.state)) = some (0, { State.initial with SndSize := 8 }) ∧
      ({ State.initial with SndSize := 8 } : State).SndRate = 0 ∧
      ({ State.initial with SndSize := 8 } : State).SndData = none ∧
      (TrashAudio { State.initial with SndSize := 8 }).1 = State.initial ∧
      (TrashAudio { State.initial with SndSize := 8 }).1 ≠ { State.initial with SndSize := 8 } :=
  ⟨by decide, by decide, by decide, by decide, by decide⟩

/-- C16, amended: from every state `TrashAudio` closes the device and leaves `SndRate = 0`,
`SndSize = 0`, `RPtr = 0`, `WPtr = 0`, `AudioPaused = 0` and a null `SndData`; calling it
twice leaves the same state as calling it once; it leaves the all-zero state unchanged, and
it changes no state exactly when the statics already have all of these values. -/
theorem TrashAudio_resets (s : State) :
    TrashAudio s =
        ({ SndRate := 0, SndSize := 0, SndData := none, RPtr := 0, WPtr := 0,
           AudioPaused := 0 }, [SDLCall.CloseAudio]) ∧
      (TrashAudio (TrashAudio s).1).1 = (TrashAudio s).1 ∧
      (TrashAudio State.initial).1 = State.initial ∧
      ((TrashAudio s).1 = s ↔ s = State.initial) := by
  refine ⟨rfl, rfl, rfl, ?_⟩
  constructor
  · intro h
    rw [← h]
    rfl
  · intro h
    rw [h]
    rfl

/-- C17 fails on the code: the single call `InitAudio(65536, 65536)`, with `malloc(0)`
returning a block and the device opening, leads from the initial state to a state with
`SndRate != 0` but `SndSize = 0`; there `RPtr < SndSize` is false, the invariant is broken, and
a following `AudioHandler` call for one frame reads `SndData[0]` outside the empty buffer. -/
theorem zero_capacity_state_reachable :
    Call.runAll State.initial [Call.InitAudio Env.allOk 65536 65536] = some State.hollow ∧
      State.hollow.SndRate ≠ 0 ∧ State.hollow.SndSize = 0 ∧
      ¬ (State.hollow.RPtr < State.hollow.SndSize) ∧ ¬ State.hollow.RingOk ∧
      AudioHandler State.hollow [9, 9] 4 = none := by
  refine ⟨by decide, by decide, by decide, by decide, ?_, by decide⟩
  intro h
  obtain ⟨buf, _, _, hc, _⟩ := h (by decide)
  exact absurd hc (by decide)

/-- C18: for every state with `SndRate != 0`, a buffer of `SndSize` slots and both pointers in
`[0, SndSize)`, and every `Data` holding at least `Length` samples, `WriteAudio` returns a
count `w <= Length`; afterwards slot `(WPtr + j) mod SndSize` holds `Data[j]` for each
`j < w`, every other slot is unchanged, in particular every slot of the circular range from
`RPtr` up to but excluding the old `WPtr`; `WPtr` has become `(WPtr + w) mod SndSize`, and
`RPtr`, `SndRate`, `SndSize` and `AudioPaused` are unchanged. -/
theorem WriteAudio_effect (s : State) (buf Data : List sample) (Length : Nat)
    (hrate : s.SndRate ≠ 0) (hbuf : s.SndData = some buf)
    (hlen : (buf.length : Int) = s.SndSize) (hsz : s.SndSize < 2147483648)
    (hR0 : 0 ≤ s.RPtr) (hR1 : s.RPtr < s.SndSize) (hW0 : 0 ≤ s.WPtr) (hW1 : s.WPtr < s.SndSize)
    (hD : Length ≤ Data.length) :
    ∃ buf' w,
      WriteAudio s Data Length =
        some ({ s with SndData := some buf', WPtr := (s.WPtr + (w : Int)) % s.SndSize }, w) ∧
      w ≤ Length ∧ buf'.length = buf.length ∧
      (∀ j, j < w → ∃ v, Data[j]? = some v ∧
        buf'[((s.WPtr + (j : Int)) % s.SndSize).toNat]? = some v) ∧
      (∀ i, (∀ j, j < w → i ≠ ((s.WPtr + (j : Int)) % s.SndSize).toNat) →
        buf'[i]? = buf[i]?) ∧
      (∀ i : Nat, (i : Int) < (s.WPtr - s.RPtr) % s.SndSize →
        buf'[((s.RPtr + (i : Int)) % s.SndSize).toNat]? =
          buf[((s.RPtr + (i : Int)) % s.SndSize).toNat]?) := by
  obtain ⟨rate, size, data, R, W, P⟩ := s
  simp only at hrate hbuf hlen hsz hR0 hR1 hW0 hW1
  subst hbuf
  subst hlen
  obtain ⟨b', hb', hbl, hcont, hframe⟩ :=
    WriteAudio_spec Data Length buf.length rate R W P buf hrate rfl hR0 hR1 hW0 hW1 hD
      (by omega)
  have hF := GetFreeAudio_eq buf.length rate R W P (some buf) hrate hR0 hR1 hW0 hW1 (by omega)
  generalize GetFreeAudio
    { SndRate := rate, SndSize := (buf.length : Int), SndData := some buf, RPtr := R, WPtr := W,
      AudioPaused := P } = F at hF hb' hcont hframe
  refine ⟨b', min Length F, hb', Nat.min_le_left _ _, hbl, ?_, hframe, ?_⟩
  · intro j hj
    have hjD : j < Data.length := by omega
    exact ⟨Data[j], List.getElem?_eq_getElem hjD, by
      rw [hcont j hj]
      exact List.getElem?_eq_getElem hjD⟩
  · intro i hi
    apply hframe
    intro j hj
    exact range_slot_ne_written buf.length R W i j hR0 hR1 hW0 hW1 hi (by omega)

/-- Witness for C18: eight slots 1, 2, 3, 0, ..., `RPtr = 0`, `WPtr = 3`, seven samples
offered. -/
theorem WriteAudio_effect_witness :
    ∃ buf' w,
      WriteAudio { SndRate := 8000, SndSize := 8, SndData := some [1, 2, 3, 0, 0, 0, 0, 0],
                   RPtr := 0, WPtr := 3, AudioPaused := 0 } [4, 5, 6, 7, 8, 9, 10] 7 =
        some ({ SndRate := 8000, SndSize := 8, SndData := some buf', RPtr := 0,
                WPtr := ((3 : Int) + (w : Int)) % 8, AudioPaused := 0 }, w) ∧
      w ≤ 7 ∧ buf'.length = [1, 2, 3, 0, 0, 0, 0, (0 : sample)].length ∧
      (∀ j, j < w → ∃ v, [4, 5, 6, 7, 8, 9, (10 : sample)][j]? = some v ∧
        buf'[(((3 : Int) + (j : Int)) % 8).toNat]? = some v) ∧
      (∀ i, (∀ j, j < w → i ≠ (((3 : Int) + (j : Int)) % 8).toNat) →
        buf'[i]? = [1, 2, 3, 0, 0, 0, 0, (0 : sample)][i]?) ∧
      (∀ i : Nat, (i : Int) < ((3 : Int) - 0) % 8 →
        buf'[(((0 : Int) + (i : Int)) % 8).toNat]? =
          [1, 2, 3, 0, 0, 0, 0, (0 : sample)][(((0 : Int) + (i : Int)) % 8).toNat]?) :=
  WriteAudio_effect { SndRate := 8000, SndSize := 8, SndData := some [1, 2, 3, 0, 0, 0, 0, 0],
                      RPtr := 0, WPtr := 3, AudioPaused := 0 } [1, 2, 3, 0, 0, 0, 0, 0]
    [4, 5, 6, 7, 8, 9, 10] 7 (by decide) rfl (by decide) (by decide) (by decide) (by decide)
    (by decide) (by decide) (by decide)

/-- C19: for every state with both pointers in `[0, SndSize)` (and, when `SndRate != 0`, a
buffer of `SndSize` slots) and every `Data` holding at least `Length` samples, `WriteAudio`
returns exactly `min(Length, GetFreeAudio())`, with `GetFreeAudio` taken before the call, and
`GetFreeAudio` taken after the call equals the earlier value minus the returned count. -/
theorem WriteAudio_returns_min_free (s : State) (Data : List sample) (Length : Nat)
    (hbuf : s.SndRate ≠ 0 → ∃ buf, s.SndData = some buf ∧ (buf.length : Int) = s.SndSize)
    (hsz : s.SndSize < 2147483648)
    (hR0 : 0 ≤ s.RPtr) (hR1 : s.RPtr < s.SndSize) (hW0 : 0 ≤ s.WPtr) (hW1 : s.WPtr < s.SndSize)
    (hD : Length ≤ Data.length) :
    ∃ s', WriteAudio s Data Length = some (s', min Length (GetFreeAudio s)) ∧
      GetFreeAudio s' = GetFreeAudio s - min Length (GetFreeAudio s) := by
  by_cases hrate : s.SndRate = 0
  · have hfree : GetFreeAudio s = 0 := GetFreeAudio_of_rate_zero s hrate
    refine ⟨s, ?_, ?_⟩
    · rw [hfree, Nat.min_zero]
      unfold WriteAudio
      rw [if_pos hrate]
    · rw [hfree, Nat.zero_sub]
  · obtain ⟨buf, hb, hlen⟩ := hbuf hrate
    obtain ⟨rate, size, data, R, W, P⟩ := s
    simp only at hrate hb hlen hsz hR0 hR1 hW0 hW1
    subst hb
    subst hlen
    obtain ⟨b', hb', -, -, -⟩ :=
      WriteAudio_spec Data Length buf.length rate R W P buf hrate rfl hR0 hR1 hW0 hW1 hD
        (by omega)
    refine ⟨_, hb', ?_⟩
    rw [GetFreeAudio_eq buf.length rate R W P (some buf) hrate hR0 hR1 hW0 hW1 (by omega)]
    exact free_after_write buf.length Length rate R W P (some b') hrate hR0 hR1 hW0 hW1
      (by omega)

/-- Witness for C19: eight slots, `RPtr = 0`, `WPtr = 3` (five free), seven samples offered. -/
theorem WriteAudio_returns_min_free_witness :
    ∃ s', WriteAudio { SndRate := 8000, SndSize := 8, SndData := some [1, 2, 3, 0, 0, 0, 0, 0],
                       RPtr := 0, WPtr := 3, AudioPaused := 0 } [4, 5, 6, 7, 8, 9, 10] 7 =
        some (s', min 7 (GetFreeAudio
          { SndRate := 8000, SndSize := 8, SndData := some [1, 2, 3, 0, 0, 0, 0, 0],
            RPtr := 0, WPtr := 3, AudioPaused := 0 })) ∧
      GetFreeAudio s' =
        GetFreeAudio { SndRate := 8000, SndSize := 8, SndData := some [1, 2, 3, 0, 0, 0, 0, 0],
                       RPtr := 0, WPtr := 3, AudioPaused := 0 } -
          min 7 (GetFreeAudio
            { SndRate := 8000, SndSize := 8, SndData := some [1, 2, 3, 0, 0, 0, 0, 0],
              RPtr := 0, WPtr := 3, AudioPaused := 0 }) :=
  WriteAudio_returns_min_free
    { SndRate := 8000, SndSize := 8, SndData := some [1, 2, 3, 0, 0, 0, 0, 0],
      RPtr := 0, WPtr := 3, AudioPaused := 0 } [4, 5, 6, 7, 8, 9, 10] 7
    (fun _ => ⟨[1, 2, 3, 0, 0, 0, 0, 0], rfl, by decide⟩) (by decide) (by decide) (by decide)
    (by decide) (by decide) (by decide)

/-- C20: in every state with `RPtr == WPtr`, for every `Data` and `Length`, `WriteAudio`
returns 0 and leaves all the statics (buffer and both pointers included) unchanged, and
`GetFreeAudio` returns 0. -/
theorem WriteAudio_of_equal_pointers (s : State) (Data : List sample) (Length : Nat)
    (h : s.RPtr = s.WPtr) :
    WriteAudio s Data Length = some (s, 0) ∧ GetFreeAudio s = 0 :=
  ⟨WriteAudio_of_ptr_eq s Data Length h, GetFreeAudio_of_ptr_eq s h⟩

/-- Witness for C20: the state right after a successful `InitAudio(8000, 1)`, which is also
the state `ResetAudio` leaves on that engine. -/
theorem WriteAudio_of_equal_pointers_witness :
    State.fresh8.RPtr = State.fresh8.WPtr ∧
    (InitAudio Env.allOk State.initial 8000 1).map (fun o => o.state) = some State.fresh8 ∧
    ResetAudio State.fresh8 = some State.fresh8 ∧
    WriteAudio State.fresh8 [1, 2, 3] 3 = some (State.fresh8, 0) ∧
    GetFreeAudio State.fresh8 = 0 :=
  ⟨rfl, by decide, by decide, WriteAudio_of_equal_pointers State.fresh8 [1, 2, 3] 3 rfl⟩

end SndSDL
